import Mathlib

/-!
Shallow embedding of the spatial tile organizer and navigation state machine of
the 3D point-cloud visualizer (`src/static/js/main.js`, dense-grid variant, and
`src/staticfiles/js/main.js`, fixed 3x3 variant).

JavaScript numbers are modelled as exact rationals (ℚ); tile coordinates are
integers (ℤ); `Map` objects (insertion-ordered, unique keys) are modelled as
association lists with `mapSet` / `mapPush` / `mlookup`.  A PLY file is a name
together with the bounding box the decoder would produce (`none` when decoding
fails) and a flag telling whether a later render-load of the same file
succeeds.  Promise rejection of an awaited load inside a loop with no
surrounding try/catch aborts the rest of the loop; this is modelled by
`loadSeq` stopping at the first file whose load fails.
-/

set_option maxHeartbeats 1000000

/-- Axis-aligned bounding box of one PLY geometry (`geometry.boundingBox`). -/
structure BBox where
  minX : ℚ
  maxX : ℚ
  minY : ℚ
  maxY : ℚ
  minZ : ℚ
  maxZ : ℚ
deriving DecidableEq

/-- The record resolved by `extractCoordinatesFromFile`. -/
structure Coords where
  centerX : ℚ
  centerY : ℚ
  centerZ : ℚ
  extentX : ℚ
  extentY : ℚ
  extentZ : ℚ
  minX : ℚ
  maxX : ℚ
  minY : ℚ
  maxY : ℚ
  minZ : ℚ
  maxZ : ℚ
deriving DecidableEq

/-- Success branch of `extractCoordinatesFromFile`: centers, extents and the
raw bounds computed from the geometry's bounding box. -/
def extractCoordinatesFromFile (b : BBox) : Coords :=
  { centerX := (b.maxX + b.minX) / 2
    centerY := (b.maxY + b.minY) / 2
    centerZ := (b.maxZ + b.minZ) / 2
    extentX := b.maxX - b.minX
    extentY := b.maxY - b.minY
    extentZ := b.maxZ - b.minZ
    minX := b.minX
    maxX := b.maxX
    minY := b.minY
    maxY := b.maxY
    minZ := b.minZ
    maxZ := b.maxZ }

/-- One input file.  `geometry = none` models a file the PLY decoder rejects
(the promise of `extractCoordinatesFromFile` rejects); `loadOk = false` models
a file whose later render-load (`loadFileForTile`) rejects. -/
structure PlyFile where
  name : String
  geometry : Option BBox
  loadOk : Bool
deriving DecidableEq

/-- An entry of `allTileFiles` / `initialTileFiles`: the object pushed by
`organizeFilesIntoTiles`. -/
structure TileFile where
  file : PlyFile
  originalCoords : Coords
  tileX : ℤ
  tileY : ℤ
deriving DecidableEq

/-- JS `Map.set`: overwrite in place when the key exists, else append. -/
def mapSet {α β : Type} [DecidableEq α] : List (α × β) → α → β → List (α × β)
  | [], k, v => [(k, v)]
  | (a, b) :: r, k, v => if a = k then (k, v) :: r else (a, b) :: mapSet r k v

/-- JS `Map.get`. -/
def mlookup {α β : Type} [DecidableEq α] : List (α × β) → α → Option β
  | [], _ => none
  | (a, b) :: r, k => if a = k then some b else mlookup r k

/-- The `if (!m.has(k)) m.set(k, []); m.get(k).push(v)` idiom. -/
def mapPush {α β : Type} [DecidableEq α] : List (α × List β) → α → β → List (α × List β)
  | [], k, v => [(k, [v])]
  | (a, l) :: r, k, v => if a = k then (a, l ++ [v]) :: r else (a, l) :: mapPush r k v

/-- Concatenation of all value lists of a tile map, in key order. -/
def tileVals {α : Type} : List (α × List TileFile) → List TileFile
  | [] => []
  | (_, l) :: r => l ++ tileVals r

/-- Number of occurrences of an element in a list. -/
def cnt {α : Type} [DecidableEq α] (a : α) : List α → ℕ
  | [] => 0
  | b :: r => (if b = a then 1 else 0) + cnt a r

/-- File names of a list of tile entries. -/
def namesOf (l : List TileFile) : List String := l.map (fun tf => tf.file.name)

/-- The mutable state of the `PointCloudVisualizer` instance (both variants
share this shape).  The scene is modelled by the file names of the `Points`
objects it contains; camera, renderer and DOM state are external. -/
structure VizState where
  plyFiles : List PlyFile
  fileCoordinates : List (String × Coords)
  currentTile : ℤ × ℤ
  tileSize : ℚ
  minX : ℚ
  maxX : ℚ
  minY : ℚ
  maxY : ℚ
  loadedPointClouds : List (String × String)
  currentPointClouds : List String
  scene : List String
  initialTileFiles : List ((ℤ × ℤ) × List TileFile)
  allTileFiles : List ((ℤ × ℤ) × List TileFile)
  initialTilesLoaded : Bool
deriving DecidableEq

/-- Constructor defaults of `PointCloudVisualizer`. -/
def initState : VizState :=
  { plyFiles := []
    fileCoordinates := []
    currentTile := (0, 0)
    tileSize := 50
    minX := 0
    maxX := 0
    minY := 0
    maxY := 0
    loadedPointClouds := []
    currentPointClouds := []
    scene := []
    initialTileFiles := []
    allTileFiles := []
    initialTilesLoaded := false }

/-- `clearCurrentPointClouds`: remove every current cloud from the scene and
empty `currentPointClouds`; `loadedPointClouds` is untouched. -/
def clearCurrentPointClouds (st : VizState) : VizState :=
  { st with
    scene := st.currentPointClouds.foldl (fun s p => s.erase p) st.scene
    currentPointClouds := [] }

/-- `clearAllPointClouds`. -/
def clearAllPointClouds (st : VizState) : VizState :=
  { clearCurrentPointClouds st with loadedPointClouds := [] }

/-- `loadFileForTile`: on success the new `Points` object (identified by its
file name) is recorded in `loadedPointClouds`, appended to
`currentPointClouds` and added to the scene; on failure the promise rejects
(`none`) and no state changes. -/
def loadFileForTile (st : VizState) (tf : TileFile) : Option VizState :=
  if tf.file.loadOk then
    some { st with
      loadedPointClouds := mapSet st.loadedPointClouds tf.file.name tf.file.name
      currentPointClouds := st.currentPointClouds ++ [tf.file.name]
      scene := st.scene ++ [tf.file.name] }
  else none

/-- An awaited `for`-loop of `loadFileForTile` calls with no try/catch: the
first rejection aborts the remaining iterations. -/
def loadSeq (st : VizState) : List TileFile → VizState
  | [] => st
  | tf :: rest =>
    match loadFileForTile st tf with
    | some st2 => loadSeq st2 rest
    | none => st

/-- The `for` loop of `analyzeAllFiles`: successful files are entered into
the `fileCoordinates` map in input order, a rejected extraction promise is
caught and its file name reported through `console.error` (second
component). -/
def analyzeLoop : List PlyFile → List (String × Coords) → List String →
    List (String × Coords) × List String
  | [], m, e => (m, e)
  | f :: rest, m, e =>
    match f.geometry with
    | some b => analyzeLoop rest (mapSet m f.name (extractCoordinatesFromFile b)) e
    | none => analyzeLoop rest m (e ++ [f.name])

/-- `analyzeAllFiles` with its `console.error` reports. -/
def analyzeAllFilesE (files : List PlyFile) : List (String × Coords) × List String :=
  analyzeLoop files [] []

/-- The `fileCoordinates` map produced by `analyzeAllFiles`. -/
def analyzeAllFiles (files : List PlyFile) : List (String × Coords) :=
  (analyzeAllFilesE files).1

/-- The four navigation buttons. -/
inductive Dir : Type
  | left
  | right
  | up
  | down
deriving DecidableEq

/-- The `switch (direction)` updates of `navigate`. -/
def stepDir (t : ℤ × ℤ) : Dir → ℤ × ℤ
  | Dir.left => (t.1 - 1, t.2)
  | Dir.right => (t.1 + 1, t.2)
  | Dir.up => (t.1, t.2 + 1)
  | Dir.down => (t.1, t.2 - 1)

namespace DenseV

/-- `Math.ceil((this.maxX - this.minX) / this.tileSize)`. -/
def totalTilesX (st : VizState) : ℤ := ⌈(st.maxX - st.minX) / st.tileSize⌉

/-- `Math.ceil((this.maxY - this.minY) / this.tileSize)`. -/
def totalTilesY (st : VizState) : ℤ := ⌈(st.maxY - st.minY) / st.tileSize⌉

/-- Tile key of one dataset in `organizeFilesIntoTiles`:
`Math.floor((coords.center - this.min) / this.tileSize)` per axis. -/
def assignTile (st : VizState) (c : Coords) : ℤ × ℤ :=
  (⌊(c.centerX - st.minX) / st.tileSize⌋, ⌊(c.centerY - st.minY) / st.tileSize⌋)

/-- The `for` loop of `organizeFilesIntoTiles` (dense variant): bucket every
analyzed file by its center; `find` retrieves the first input file bearing
the iterated name. -/
def organizeLoop (st : VizState) : List (String × Coords) →
    List ((ℤ × ℤ) × List TileFile) → List ((ℤ × ℤ) × List TileFile)
  | [], m => m
  | nc :: rest, m =>
    let t := assignTile st nc.2
    match st.plyFiles.find? (fun f => f.name == nc.1) with
    | some f =>
      organizeLoop st rest
        (mapPush m t { file := f, originalCoords := nc.2, tileX := t.1, tileY := t.2 })
    | none => organizeLoop st rest m

/-- `organizeFilesIntoTiles` (dense variant): bucket the files, then point
`currentTile` at the geometric center of the derived grid
(`Math.floor(totalTiles / 2)` per axis; `Math.floor` of a JS division is
Euclidean division, and both operands are non-negative here). -/
def organizeFilesIntoTiles (st : VizState) : VizState :=
  { st with
    allTileFiles := organizeLoop st st.fileCoordinates []
    currentTile := (totalTilesX st / 2, totalTilesY st / 2) }

/-- `calculateGridOrganization` (dense variant).  The source folds the bounds
from `±Infinity`; over the non-empty `fileCoordinates` this equals folding
from the first entry's value (the first entry is absorbed by idempotence of
`min`/`max`). -/
def calculateGridOrganization (st : VizState) : VizState :=
  match st.fileCoordinates with
  | [] => st
  | (_, c0) :: _ =>
    let cs := st.fileCoordinates.map (fun nc => nc.2)
    let st := { st with
      minX := cs.foldl (fun a (c : Coords) => min a c.minX) c0.minX
      maxX := cs.foldl (fun a (c : Coords) => max a c.maxX) c0.maxX
      minY := cs.foldl (fun a (c : Coords) => min a c.minY) c0.minY
      maxY := cs.foldl (fun a (c : Coords) => max a c.maxY) c0.maxY }
    let totalExtentX := cs.foldl (fun a (c : Coords) => a + c.extentX) 0
    let totalExtentY := cs.foldl (fun a (c : Coords) => a + c.extentY) 0
    let avgExtentX := totalExtentX / (cs.length : ℚ)
    let avgExtentY := totalExtentY / (cs.length : ℚ)
    organizeFilesIntoTiles { st with tileSize := max avgExtentX avgExtentY * (6 / 5) }

/-- `isValidTilePosition` (dense variant). -/
def isValidTilePosition (st : VizState) (t : ℤ × ℤ) : Prop :=
  0 ≤ t.1 ∧ t.1 < totalTilesX st ∧ 0 ≤ t.2 ∧ t.2 < totalTilesY st

instance (st : VizState) (t : ℤ × ℤ) : Decidable (isValidTilePosition st t) := by
  unfold isValidTilePosition; infer_instance

/-- `loadCurrentTile` (dense variant): clear, then load all files of the
current tile (after the initial pass) or only its designated initial file
(during the initial pass); an awaited load failure aborts the loop. -/
def loadCurrentTile (st : VizState) : VizState :=
  let st := clearCurrentPointClouds st
  let filesToLoad :=
    if st.initialTilesLoaded then (mlookup st.allTileFiles st.currentTile).getD []
    else (mlookup st.initialTileFiles st.currentTile).getD []
  loadSeq st filesToLoad

/-- `navigate` (dense variant): a destination is accepted when its key is
present in `allTileFiles` or it is a valid grid position. -/
def navigate (st : VizState) (d : Dir) : VizState :=
  if st.allTileFiles.isEmpty then st
  else
    let n := stepDir st.currentTile d
    if (mlookup st.allTileFiles n).isSome = true ∨ isValidTilePosition st n then
      loadCurrentTile { st with currentTile := n }
    else st

/-- The 3x3 block of tile keys visited by `loadInitialTiles` (outer loop on
x, inner loop on y). -/
def window (c : ℤ × ℤ) : List (ℤ × ℤ) :=
  [(c.1 - 1, c.2 - 1), (c.1 - 1, c.2), (c.1 - 1, c.2 + 1),
   (c.1, c.2 - 1), (c.1, c.2), (c.1, c.2 + 1),
   (c.1 + 1, c.2 - 1), (c.1 + 1, c.2), (c.1 + 1, c.2 + 1)]

/-- One iteration of the `loadInitialTiles` loop; the boolean records that an
awaited load rejected, which aborts the remaining iterations. -/
def loadInitialStep (acc : VizState × Bool) (k : ℤ × ℤ) : VizState × Bool :=
  if acc.2 then acc
  else
    let s := acc.1
    match (mlookup s.allTileFiles k).getD [] with
    | [] => (s, false)
    | ff :: _ =>
      let s := { s with initialTileFiles := mapSet s.initialTileFiles k [ff] }
      match loadFileForTile s ff with
      | some s2 => (s2, false)
      | none => (s, true)

/-- `loadInitialTiles` (dense variant): for each tile of the 3x3 window
around the center, record and load the first of its files;
`initialTilesLoaded` is only reached when no load rejected. -/
def loadInitialTiles (st0 : VizState) : VizState :=
  let st := clearCurrentPointClouds { st0 with initialTileFiles := [] }
  let r := (window st.currentTile).foldl loadInitialStep (st, false)
  if r.2 then r.1 else { r.1 with initialTilesLoaded := true }

/-- The analysis pipeline run by `handleFolderSelection` once a non-empty
file list is accepted: `analyzeAllFiles` then `calculateGridOrganization`. -/
def analyzeAndOrganize (files : List PlyFile) : VizState :=
  calculateGridOrganization
    { initState with plyFiles := files, fileCoordinates := analyzeAllFiles files }

/-- `file.name.toLowerCase().endsWith('.ply')`. -/
def isPlyName (s : String) : Bool := s.toLower.endsWith ".ply"

/-- `handleFolderSelection` (dense variant); the boolean result records the
`No .ply files found` alert path, on which no state is touched. -/
def handleFolderSelection (st : VizState) (input : List PlyFile) : VizState × Bool :=
  let files := input.filter (fun f => isPlyName f.name)
  if files.isEmpty then (st, true)
  else
    let st := { st with plyFiles := files, initialTilesLoaded := false,
                        fileCoordinates := analyzeAllFiles files }
    (loadInitialTiles (calculateGridOrganization st), false)

end DenseV

namespace Fixed33

/-- The 9 tile keys of the fixed 3x3 grid, in the enumeration order of the
nested loops of `organizeFilesIntoTiles` (outer loop on x, inner loop on y),
which is also the order the running `fileIndex` follows. -/
def gridKeys33 : List (ℤ × ℤ) :=
  [(0, 0), (0, 1), (0, 2), (1, 0), (1, 1), (1, 2), (2, 0), (2, 1), (2, 2)]

/-- The assignment loop of `organizeFilesIntoTiles` (fixed 3x3 variant): the
pairs are the tile keys in enumeration order zipped with the first 9 input
files, mirroring the running `fileIndex`; a file without extracted
coordinates leaves its tile empty and is reported through `console.warn`. -/
def assignLoop (cm : List (String × Coords)) : List ((ℤ × ℤ) × PlyFile) →
    List ((ℤ × ℤ) × List TileFile) → List String →
    List ((ℤ × ℤ) × List TileFile) × List String
  | [], m, w => (m, w)
  | (k, f) :: rest, m, w =>
    match mlookup cm f.name with
    | some c =>
      assignLoop cm rest
        (mapSet m k [{ file := f, originalCoords := c, tileX := k.1, tileY := k.2 }]) w
    | none => assignLoop cm rest m (w ++ ["noCoordinates:" ++ f.name])

/-- The 9 empty tiles created by the initialization loop. -/
def emptyTiles33 : List ((ℤ × ℤ) × List TileFile) :=
  gridKeys33.foldl (fun m k => mapSet m k ([] : List TileFile)) []

/-- `organizeFilesIntoTiles` (fixed 3x3 variant): initialize all 9 tiles to
empty lists, then assign the k-th of the first 9 input files to the k-th key
of the enumeration whenever its coordinates were extracted (a file without
coordinates leaves its tile empty; the index still advances).  The second
component collects the `console.warn` messages. -/
def organizeFilesIntoTilesW (st : VizState) : VizState × List String :=
  let filesToUse := st.plyFiles.take 9
  let warns0 := if filesToUse.length < 9 then ["fewFiles"] else []
  let r := assignLoop st.fileCoordinates (gridKeys33.zip filesToUse) emptyTiles33 warns0
  ({ st with allTileFiles := r.1, currentTile := (1, 1) }, r.2)

/-- The state component of `organizeFilesIntoTilesW`. -/
def organizeFilesIntoTiles (st : VizState) : VizState := (organizeFilesIntoTilesW st).1

/-- `calculateGridOrganization` (fixed 3x3 variant): identical to the dense
variant except for the tile-size multiplier `2.0`. -/
def calculateGridOrganization (st : VizState) : VizState :=
  match st.fileCoordinates with
  | [] => st
  | (_, c0) :: _ =>
    let cs := st.fileCoordinates.map (fun nc => nc.2)
    let st := { st with
      minX := cs.foldl (fun a (c : Coords) => min a c.minX) c0.minX
      maxX := cs.foldl (fun a (c : Coords) => max a c.maxX) c0.maxX
      minY := cs.foldl (fun a (c : Coords) => min a c.minY) c0.minY
      maxY := cs.foldl (fun a (c : Coords) => max a c.maxY) c0.maxY }
    let totalExtentX := cs.foldl (fun a (c : Coords) => a + c.extentX) 0
    let totalExtentY := cs.foldl (fun a (c : Coords) => a + c.extentY) 0
    let avgExtentX := totalExtentX / (cs.length : ℚ)
    let avgExtentY := totalExtentY / (cs.length : ℚ)
    organizeFilesIntoTiles { st with tileSize := max avgExtentX avgExtentY * 2 }

/-- `loadCurrentTile` (fixed 3x3 variant): always loads from `allTileFiles`. -/
def loadCurrentTile (st : VizState) : VizState :=
  let st := clearCurrentPointClouds st
  loadSeq st ((mlookup st.allTileFiles st.currentTile).getD [])

/-- `navigate` (fixed 3x3 variant): the destination must lie inside the 3x3
grid and its tile must have a file assigned; otherwise the state is kept. -/
def navigate (st : VizState) (d : Dir) : VizState :=
  if st.allTileFiles.isEmpty then st
  else
    let n := stepDir st.currentTile d
    if 0 ≤ n.1 ∧ n.1 < 3 ∧ 0 ≤ n.2 ∧ n.2 < 3 then
      if ((mlookup st.allTileFiles n).getD []).length > 0 then
        loadCurrentTile { st with currentTile := n }
      else st
    else st

/-- `loadInitialTiles` (fixed 3x3 variant): record and load only the first
file of the center tile; `initialTilesLoaded` is only reached when the
awaited load did not reject. -/
def loadInitialTiles (st0 : VizState) : VizState :=
  let st := clearCurrentPointClouds { st0 with initialTileFiles := [] }
  match (mlookup st.allTileFiles st.currentTile).getD [] with
  | [] => { st with initialTilesLoaded := true }
  | tf :: _ =>
    let st := { st with initialTileFiles := mapSet st.initialTileFiles st.currentTile [tf] }
    match loadFileForTile st tf with
    | some s2 => { s2 with initialTilesLoaded := true }
    | none => st

/-- The analysis pipeline of the fixed 3x3 variant. -/
def analyzeAndOrganize (files : List PlyFile) : VizState :=
  calculateGridOrganization
    { initState with plyFiles := files, fileCoordinates := analyzeAllFiles files }

end Fixed33

/-! ### Helper lemmas about the map and counting primitives -/

lemma mlookup_mapSet_self {α β : Type} [DecidableEq α] (m : List (α × β)) (k : α) (v : β) :
    mlookup (mapSet m k v) k = some v := by
  induction m with
  | nil => simp [mapSet, mlookup]
  | cons p r ih =>
    obtain ⟨a, b⟩ := p
    by_cases ha : a = k
    · subst ha
      simp [mapSet, mlookup]
    · simp [mapSet, mlookup, ha, ih]

lemma mlookup_mapSet_other {α β : Type} [DecidableEq α] (m : List (α × β)) (k x : α) (v : β)
    (h : x ≠ k) : mlookup (mapSet m k v) x = mlookup m x := by
  induction m with
  | nil => simp [mapSet, mlookup, Ne.symm h]
  | cons p r ih =>
    obtain ⟨a, b⟩ := p
    by_cases ha : a = k
    · subst ha
      simp [mapSet, mlookup, Ne.symm h]
    · simp [mapSet, mlookup, ha, ih]

lemma mapSet_append_of_not_mem {α β : Type} [DecidableEq α] (m : List (α × β)) (k : α) (v : β)
    (h : ∀ p ∈ m, p.1 ≠ k) : mapSet m k v = m ++ [(k, v)] := by
  induction m with
  | nil => simp [mapSet]
  | cons p r ih =>
    obtain ⟨a, b⟩ := p
    have ha : a ≠ k := h (a, b) (by simp)
    simp only [mapSet, ha, if_false, List.cons_append, List.cons.injEq, true_and]
    exact ih (fun p hp => h p (by simp [hp]))

lemma mlookup_mapPush {α : Type} [DecidableEq α] (m : List (α × List TileFile)) (k x : α)
    (v : TileFile) :
    mlookup (mapPush m k v) x
      = if x = k then some ((mlookup m k).getD [] ++ [v]) else mlookup m x := by
  induction m with
  | nil =>
    by_cases h : x = k
    · subst h
      simp [mapPush, mlookup]
    · simp [mapPush, mlookup, h, Ne.symm h]
  | cons p r ih =>
    obtain ⟨a, l⟩ := p
    by_cases ha : a = k
    · subst ha
      by_cases hx : x = a
      · subst hx
        simp [mapPush, mlookup]
      · simp [mapPush, mlookup, hx, Ne.symm hx]
    · by_cases hx : x = a
      · have hxk : x ≠ k := by
          rw [hx]
          exact ha
        subst hx
        simp [mapPush, mlookup, ha, hxk]
      · simp [mapPush, mlookup, ha, Ne.symm hx, hx, ih]

lemma cnt_append {α : Type} [DecidableEq α] (a : α) (l1 l2 : List α) :
    cnt a (l1 ++ l2) = cnt a l1 + cnt a l2 := by
  induction l1 with
  | nil => simp [cnt]
  | cons b r ih =>
    simp only [List.cons_append, cnt, List.append_eq, ih]
    ring

lemma cnt_eq_zero_of_not_mem {α : Type} [DecidableEq α] {a : α} {l : List α} (h : a ∉ l) :
    cnt a l = 0 := by
  induction l with
  | nil => simp [cnt]
  | cons b r ih =>
    simp only [List.mem_cons, not_or] at h
    simp [cnt, Ne.symm h.1, ih h.2]

lemma cnt_eq_one_of_mem_nodup {α : Type} [DecidableEq α] {a : α} {l : List α}
    (hnd : l.Nodup) (h : a ∈ l) : cnt a l = 1 := by
  induction l with
  | nil => simp at h
  | cons b r ih =>
    rcases List.mem_cons.mp h with h1 | h2
    · subst h1
      have hnm : a ∉ r := (List.nodup_cons.mp hnd).1
      simp [cnt, cnt_eq_zero_of_not_mem hnm]
    · have hb : b ≠ a := by
        rintro rfl
        exact (List.nodup_cons.mp hnd).1 h2
      simp [cnt, hb, ih (List.nodup_cons.mp hnd).2 h2]

lemma namesOf_append (l1 l2 : List TileFile) :
    namesOf (l1 ++ l2) = namesOf l1 ++ namesOf l2 := by
  simp [namesOf]

lemma tileVals_mapPush_cnt {α : Type} [DecidableEq α] (m : List (α × List TileFile)) (k : α)
    (v : TileFile) (s : String) :
    cnt s (namesOf (tileVals (mapPush m k v)))
      = cnt s (namesOf (tileVals m)) + (if v.file.name = s then 1 else 0) := by
  induction m with
  | nil => simp [mapPush, tileVals, namesOf, cnt]
  | cons p r ih =>
    obtain ⟨a, l⟩ := p
    by_cases ha : a = k
    · subst ha
      simp only [mapPush, if_pos rfl, tileVals, namesOf_append, cnt_append]
      simp only [namesOf, List.map_cons, List.map_nil, cnt]
      ring
    · simp only [mapPush, if_neg ha, tileVals, namesOf_append, cnt_append, ih]
      ring

/-! ### State-projection lemmas for the loading operations -/

lemma loadSeq_proj (st : VizState) (l : List TileFile) :
    (loadSeq st l).plyFiles = st.plyFiles ∧
    (loadSeq st l).fileCoordinates = st.fileCoordinates ∧
    (loadSeq st l).currentTile = st.currentTile ∧
    (loadSeq st l).tileSize = st.tileSize ∧
    (loadSeq st l).minX = st.minX ∧
    (loadSeq st l).maxX = st.maxX ∧
    (loadSeq st l).minY = st.minY ∧
    (loadSeq st l).maxY = st.maxY ∧
    (loadSeq st l).initialTileFiles = st.initialTileFiles ∧
    (loadSeq st l).allTileFiles = st.allTileFiles ∧
    (loadSeq st l).initialTilesLoaded = st.initialTilesLoaded := by
  induction l generalizing st with
  | nil => simp [loadSeq]
  | cons tf rest ih =>
    by_cases h : tf.file.loadOk
    · simpa [loadSeq, loadFileForTile, h] using ih _
    · simp [loadSeq, loadFileForTile, h]

lemma loadSeq_clouds (st : VizState) (l : List TileFile) :
    (loadSeq st l).currentPointClouds
        = st.currentPointClouds ++ namesOf (l.takeWhile (fun tf => tf.file.loadOk)) ∧
    (loadSeq st l).scene = st.scene ++ namesOf (l.takeWhile (fun tf => tf.file.loadOk)) := by
  induction l generalizing st with
  | nil => simp [loadSeq, namesOf]
  | cons tf rest ih =>
    by_cases h : tf.file.loadOk
    · obtain ⟨h1, h2⟩ := ih { st with
        loadedPointClouds := mapSet st.loadedPointClouds tf.file.name tf.file.name
        currentPointClouds := st.currentPointClouds ++ [tf.file.name]
        scene := st.scene ++ [tf.file.name] }
      simp [loadSeq, loadFileForTile, h, h1, h2, List.takeWhile_cons, namesOf]
    · simp [loadSeq, loadFileForTile, h, List.takeWhile_cons, namesOf]

lemma loadSeq_loaded_mono (st : VizState) (l : List TileFile) (s : String) :
    (mlookup st.loadedPointClouds s).isSome = true →
    (mlookup (loadSeq st l).loadedPointClouds s).isSome = true := by
  induction l generalizing st with
  | nil => simp [loadSeq]
  | cons tf rest ih =>
    intro h
    by_cases hk : tf.file.loadOk
    · simp only [loadSeq, loadFileForTile, hk, if_pos]
      refine ih _ ?_
      by_cases hs : s = tf.file.name
      · subst hs
        simp [mlookup_mapSet_self]
      · simpa [mlookup_mapSet_other _ _ _ _ hs] using h
    · simpa [loadSeq, loadFileForTile, hk] using h

lemma foldl_erase_self (l : List String) :
    l.foldl (fun s p => s.erase p) l = [] := by
  have h : ∀ (l2 l1 : List String), l1.foldl (fun s p => s.erase p) (l1 ++ l2) = l2 := by
    intro l2 l1
    induction l1 with
    | nil => simp
    | cons a r ih => simpa using ih
  simpa using h [] l

lemma clearCurrentPointClouds_proj (st : VizState) :
    (clearCurrentPointClouds st).plyFiles = st.plyFiles ∧
    (clearCurrentPointClouds st).fileCoordinates = st.fileCoordinates ∧
    (clearCurrentPointClouds st).currentTile = st.currentTile ∧
    (clearCurrentPointClouds st).tileSize = st.tileSize ∧
    (clearCurrentPointClouds st).minX = st.minX ∧
    (clearCurrentPointClouds st).maxX = st.maxX ∧
    (clearCurrentPointClouds st).minY = st.minY ∧
    (clearCurrentPointClouds st).maxY = st.maxY ∧
    (clearCurrentPointClouds st).loadedPointClouds = st.loadedPointClouds ∧
    (clearCurrentPointClouds st).currentPointClouds = [] ∧
    (clearCurrentPointClouds st).initialTileFiles = st.initialTileFiles ∧
    (clearCurrentPointClouds st).allTileFiles = st.allTileFiles ∧
    (clearCurrentPointClouds st).initialTilesLoaded = st.initialTilesLoaded := by
  simp [clearCurrentPointClouds]

lemma clearCurrentPointClouds_scene (st : VizState) (h : st.scene = st.currentPointClouds) :
    (clearCurrentPointClouds st).scene = [] := by
  simp [clearCurrentPointClouds, h, foldl_erase_self]

/-! ### Navigation invariants -/

namespace DenseV

/-- Grid-frame and catalog projections untouched by `loadCurrentTile`. -/
lemma loadCurrentTileDense_proj (st : VizState) :
    (loadCurrentTile st).currentTile = st.currentTile ∧
    (loadCurrentTile st).tileSize = st.tileSize ∧
    (loadCurrentTile st).minX = st.minX ∧
    (loadCurrentTile st).maxX = st.maxX ∧
    (loadCurrentTile st).minY = st.minY ∧
    (loadCurrentTile st).maxY = st.maxY ∧
    (loadCurrentTile st).allTileFiles = st.allTileFiles ∧
    (loadCurrentTile st).initialTilesLoaded = st.initialTilesLoaded := by
  unfold loadCurrentTile
  obtain ⟨p1, p2, p3, p4, p5, p6, p7, p8, p9, p10, p11⟩ := loadSeq_proj
    (clearCurrentPointClouds st)
    (if (clearCurrentPointClouds st).initialTilesLoaded then
        (mlookup (clearCurrentPointClouds st).allTileFiles
          (clearCurrentPointClouds st).currentTile).getD []
      else
        (mlookup (clearCurrentPointClouds st).initialTileFiles
          (clearCurrentPointClouds st).currentTile).getD [])
  simp_all [clearCurrentPointClouds]

/-- The navigation invariant: the current tile is a valid grid position or an
occupied key of the tile catalog. -/
def navInv (st : VizState) : Prop :=
  isValidTilePosition st st.currentTile ∨
    (mlookup st.allTileFiles st.currentTile).isSome = true

/-- One dense `navigate` step preserves the navigation invariant, and it
preserves the grid frame and tile catalog. -/
lemma navigate_navInv (st : VizState) (d : Dir) (h : navInv st) :
    navInv (navigate st d) ∧
    (navigate st d).allTileFiles = st.allTileFiles ∧
    (navigate st d).tileSize = st.tileSize ∧
    (navigate st d).minX = st.minX ∧
    (navigate st d).maxX = st.maxX ∧
    (navigate st d).minY = st.minY ∧
    (navigate st d).maxY = st.maxY := by
  unfold navigate
  by_cases he : st.allTileFiles.isEmpty
  · simp [he, h]
  · simp only [he, Bool.false_eq_true, if_false]
    by_cases hc :
        (mlookup st.allTileFiles (stepDir st.currentTile d)).isSome = true ∨
          isValidTilePosition st (stepDir st.currentTile d)
    · simp only [hc, if_true]
      obtain ⟨q1, q2, q3, q4, q5, q6, q7, q8⟩ :=
        loadCurrentTileDense_proj { st with currentTile := stepDir st.currentTile d }
      refine ⟨?_, by simp [q7], by simp [q2], by simp [q3], by simp [q4], by simp [q5],
        by simp [q6]⟩
      unfold navInv isValidTilePosition totalTilesX totalTilesY
      unfold isValidTilePosition totalTilesX totalTilesY at hc
      rcases hc with hc | hc
      · right
        simp [q1, q7, hc]
      · left
        simp [q1, q2, q3, q4, q5, q6, hc]
    · simp [hc, h]

/-- Rejection: a destination that is neither an occupied key nor a valid grid
position leaves the whole state unchanged. -/
lemma navigate_reject (st : VizState) (d : Dir)
    (h : ¬ ((mlookup st.allTileFiles (stepDir st.currentTile d)).isSome = true ∨
            isValidTilePosition st (stepDir st.currentTile d))) :
    navigate st d = st := by
  unfold navigate
  by_cases he : st.allTileFiles.isEmpty
  · simp [he]
  · simp [he, h]

/-- The initial tile chosen by `organizeFilesIntoTiles` is a valid grid
position whenever the derived grid is non-degenerate. -/
lemma organize_initialTile_valid (st : VizState)
    (hx : 1 ≤ totalTilesX st) (hy : 1 ≤ totalTilesY st) :
    isValidTilePosition (organizeFilesIntoTiles st)
      (organizeFilesIntoTiles st).currentTile := by
  unfold organizeFilesIntoTiles isValidTilePosition totalTilesX totalTilesY
  unfold totalTilesX at hx
  unfold totalTilesY at hy
  simp only
  omega

end DenseV

namespace Fixed33

/-- Grid-frame and catalog projections untouched by the fixed-variant
`loadCurrentTile`. -/
lemma loadCurrentTileFixed_proj (st : VizState) :
    (loadCurrentTile st).currentTile = st.currentTile ∧
    (loadCurrentTile st).allTileFiles = st.allTileFiles := by
  unfold loadCurrentTile
  obtain ⟨p1, p2, p3, p4, p5, p6, p7, p8, p9, p10, p11⟩ := loadSeq_proj
    (clearCurrentPointClouds st)
    ((mlookup (clearCurrentPointClouds st).allTileFiles
      (clearCurrentPointClouds st).currentTile).getD [])
  simp_all [clearCurrentPointClouds]

/-- The 3x3 bounds check of the fixed-variant `navigate`. -/
def inGrid33 (t : ℤ × ℤ) : Prop := 0 ≤ t.1 ∧ t.1 < 3 ∧ 0 ≤ t.2 ∧ t.2 < 3

instance (t : ℤ × ℤ) : Decidable (inGrid33 t) := by
  unfold inGrid33
  infer_instance

/-- One fixed-variant `navigate` step keeps the current tile inside the 3x3
grid. -/
lemma navigate_inGrid (st : VizState) (d : Dir) (h : inGrid33 st.currentTile) :
    inGrid33 (navigate st d).currentTile := by
  unfold navigate
  by_cases he : st.allTileFiles.isEmpty
  · simp [he, h]
  · simp only [he, Bool.false_eq_true, if_false]
    by_cases hb : 0 ≤ (stepDir st.currentTile d).1 ∧ (stepDir st.currentTile d).1 < 3 ∧
        0 ≤ (stepDir st.currentTile d).2 ∧ (stepDir st.currentTile d).2 < 3
    · simp only [hb, if_true]
      by_cases hf : ((mlookup st.allTileFiles (stepDir st.currentTile d)).getD []).length > 0
      · simp only [hf, if_true]
        have := (loadCurrentTileFixed_proj { st with currentTile := stepDir st.currentTile d }).1
        unfold inGrid33
        simp [this, hb.1, hb.2.1, hb.2.2.1, hb.2.2.2]
      · simp [hf, h]
    · simp [hb, h]

/-- An out-of-grid destination leaves the whole state unchanged. -/
lemma navigate_reject_oob (st : VizState) (d : Dir)
    (h : ¬ (0 ≤ (stepDir st.currentTile d).1 ∧ (stepDir st.currentTile d).1 < 3 ∧
            0 ≤ (stepDir st.currentTile d).2 ∧ (stepDir st.currentTile d).2 < 3)) :
    navigate st d = st := by
  unfold navigate
  by_cases he : st.allTileFiles.isEmpty
  · simp [he]
  · simp [he, h]

end Fixed33

/-! ### Concrete inputs used by counterexamples and witnesses -/

/-- A dataset spanning x, y in `[0, 10]`. -/
def bbA : BBox := ⟨0, 10, 0, 10, 0, 0⟩

/-- A zero-extent dataset sitting on the global max-x boundary. -/
def bbB : BBox := ⟨12, 12, 0, 0, 0, 0⟩

def fileA : PlyFile := { name := "a.ply", geometry := some bbA, loadOk := true }

def fileB : PlyFile := { name := "b.ply", geometry := some bbB, loadOk := true }

def tfileA : TileFile :=
  { file := fileA, originalCoords := extractCoordinatesFromFile bbA, tileX := 0, tileY := 0 }

def tfileB : TileFile :=
  { file := fileB, originalCoords := extractCoordinatesFromFile bbB, tileX := 2, tileY := 0 }

/-- The state right after `analyzeAllFiles` and the frame computation of
`calculateGridOrganization` on `[fileA, fileB]`: global bounds
`[0,12] x [0,10]`, average extents `5`, tile size `5 * 1.2 = 6`. -/
def stFrameAB : VizState :=
  { initState with
    plyFiles := [fileA, fileB]
    fileCoordinates :=
      [("a.ply", extractCoordinatesFromFile bbA), ("b.ply", extractCoordinatesFromFile bbB)]
    minX := 0
    maxX := 12
    minY := 0
    maxY := 10
    tileSize := 6 }

/-- After `organizeFilesIntoTiles`: a 2x2 derived grid, `fileA` in tile
`(0,0)`, `fileB` in the out-of-grid tile `(2,0)`, initial tile `(1,1)`. -/
def stOrgAB : VizState :=
  { stFrameAB with allTileFiles := [((0, 0), [tfileA]), ((2, 0), [tfileB])], currentTile := (1, 1) }

/-- After `loadInitialTiles`: both occupied window tiles contributed their
first file. -/
def stReadyAB : VizState :=
  { stOrgAB with
    initialTileFiles := [((0, 0), [tfileA]), ((2, 0), [tfileB])]
    loadedPointClouds := [("a.ply", "a.ply"), ("b.ply", "b.ply")]
    currentPointClouds := ["a.ply", "b.ply"]
    scene := ["a.ply", "b.ply"]
    initialTilesLoaded := true }

lemma analyzeAB : analyzeAllFiles [fileA, fileB] =
    [("a.ply", extractCoordinatesFromFile bbA), ("b.ply", extractCoordinatesFromFile bbB)] := rfl

lemma organizeAB : DenseV.analyzeAndOrganize [fileA, fileB] = stOrgAB := by
  have h1 : ("a.ply" == "a.ply") = true := rfl
  have h2 : ("a.ply" == "b.ply") = false := rfl
  have h3 : ("b.ply" == "b.ply") = true := rfl
  have hc : (⌈((5:ℚ)/3)⌉ : ℤ) = 2 := by
    rw [Int.ceil_eq_iff]
    norm_num
  have e1 : DenseV.analyzeAndOrganize [fileA, fileB] = DenseV.organizeFilesIntoTiles stFrameAB := by
    show DenseV.calculateGridOrganization _ = _
    simp only [DenseV.analyzeAndOrganize]
    rw [analyzeAB]
    simp only [DenseV.calculateGridOrganization, List.map, List.foldl]
    congr 1
    simp only [stFrameAB, initState, extractCoordinatesFromFile, bbA, bbB, VizState.mk.injEq]
    norm_num
  have e2 : DenseV.organizeFilesIntoTiles stFrameAB = stOrgAB := by
    simp only [DenseV.organizeFilesIntoTiles, DenseV.organizeLoop, DenseV.assignTile,
      DenseV.totalTilesX, DenseV.totalTilesY, stFrameAB, initState, List.find?, mapPush,
      extractCoordinatesFromFile, bbA, bbB, fileA, fileB, h1, h2, h3]
    norm_num [-Prod.mk_zero_zero, hc, Prod.mk.injEq, stOrgAB, stFrameAB, initState,
      tfileA, tfileB, fileA, fileB, extractCoordinatesFromFile, bbA, bbB]
  rw [e1, e2]

lemma pipelineAB :
    DenseV.loadInitialTiles (DenseV.analyzeAndOrganize [fileA, fileB]) = stReadyAB := by
  have hne : ¬ (("a.ply" : String) = "b.ply") := by simp
  rw [organizeAB]
  simp only [DenseV.loadInitialTiles, DenseV.window, DenseV.loadInitialStep,
    clearCurrentPointClouds, loadFileForTile, mapSet, mlookup, loadSeq,
    stOrgAB, stFrameAB, initState, tfileA, tfileB, fileA, fileB, List.foldl]
  norm_num [-Prod.mk_zero_zero, Prod.mk.injEq, hne, stReadyAB, stOrgAB, stFrameAB, initState,
    tfileA, tfileB, fileA, fileB]

/-! ### C1: navigation boundary invariant -/

/-- Preservation of grid frame, tile catalog and current tile by the dense
`loadInitialTiles` (it only touches clouds, `initialTileFiles` and the
`initialTilesLoaded` flag). -/
lemma DenseV.loadInitialTiles_proj (st : VizState) :
    (DenseV.loadInitialTiles st).currentTile = st.currentTile ∧
    (DenseV.loadInitialTiles st).tileSize = st.tileSize ∧
    (DenseV.loadInitialTiles st).minX = st.minX ∧
    (DenseV.loadInitialTiles st).maxX = st.maxX ∧
    (DenseV.loadInitialTiles st).minY = st.minY ∧
    (DenseV.loadInitialTiles st).maxY = st.maxY ∧
    (DenseV.loadInitialTiles st).allTileFiles = st.allTileFiles := by
  have hstep : ∀ (ks : List (ℤ × ℤ)) (acc : VizState × Bool),
      ((ks.foldl DenseV.loadInitialStep acc).1).currentTile = acc.1.currentTile ∧
      ((ks.foldl DenseV.loadInitialStep acc).1).tileSize = acc.1.tileSize ∧
      ((ks.foldl DenseV.loadInitialStep acc).1).minX = acc.1.minX ∧
      ((ks.foldl DenseV.loadInitialStep acc).1).maxX = acc.1.maxX ∧
      ((ks.foldl DenseV.loadInitialStep acc).1).minY = acc.1.minY ∧
      ((ks.foldl DenseV.loadInitialStep acc).1).maxY = acc.1.maxY ∧
      ((ks.foldl DenseV.loadInitialStep acc).1).allTileFiles = acc.1.allTileFiles := by
    intro ks
    induction ks with
    | nil => intro acc; simp
    | cons k rest ih =>
      intro acc
      rw [List.foldl_cons]
      obtain ⟨q1, q2, q3, q4, q5, q6, q7⟩ := ih (DenseV.loadInitialStep acc k)
      have hone : (DenseV.loadInitialStep acc k).1.currentTile = acc.1.currentTile ∧
          (DenseV.loadInitialStep acc k).1.tileSize = acc.1.tileSize ∧
          (DenseV.loadInitialStep acc k).1.minX = acc.1.minX ∧
          (DenseV.loadInitialStep acc k).1.maxX = acc.1.maxX ∧
          (DenseV.loadInitialStep acc k).1.minY = acc.1.minY ∧
          (DenseV.loadInitialStep acc k).1.maxY = acc.1.maxY ∧
          (DenseV.loadInitialStep acc k).1.allTileFiles = acc.1.allTileFiles := by
        unfold DenseV.loadInitialStep
        by_cases hb : acc.2
        · simp [hb]
        · simp only [hb, Bool.false_eq_true, if_false]
          cases hm : (mlookup acc.1.allTileFiles k).getD [] with
          | nil => simp
          | cons ff rest2 =>
            by_cases hl : ff.file.loadOk <;>
              simp [loadFileForTile, hl]
      exact ⟨q1.trans hone.1, q2.trans hone.2.1, q3.trans hone.2.2.1, q4.trans hone.2.2.2.1,
        q5.trans hone.2.2.2.2.1, q6.trans hone.2.2.2.2.2.1, q7.trans hone.2.2.2.2.2.2⟩
  unfold DenseV.loadInitialTiles
  obtain ⟨q1, q2, q3, q4, q5, q6, q7⟩ := hstep
    (DenseV.window (clearCurrentPointClouds { st with initialTileFiles := [] }).currentTile)
    ((clearCurrentPointClouds { st with initialTileFiles := [] }), false)
  by_cases hr : ((DenseV.window
      (clearCurrentPointClouds { st with initialTileFiles := [] }).currentTile).foldl
      DenseV.loadInitialStep ((clearCurrentPointClouds { st with initialTileFiles := [] }), false)).2
  · simp_all [clearCurrentPointClouds]
  · simp_all [clearCurrentPointClouds]

/-- `loadInitialTiles` preserves the navigation invariant. -/
lemma DenseV.navInv_loadInitialTiles (st : VizState) (h : DenseV.navInv st) :
    DenseV.navInv (DenseV.loadInitialTiles st) := by
  obtain ⟨q1, q2, q3, q4, q5, q6, q7⟩ := DenseV.loadInitialTiles_proj st
  unfold DenseV.navInv DenseV.isValidTilePosition DenseV.totalTilesX DenseV.totalTilesY at h ⊢
  rw [q1, q2, q3, q4, q5, q6, q7]
  exact h


/-- Equation: `calculateGridOrganization` (dense) is the identity on a state
with no analyzed coordinates. -/
lemma DenseV.calcGridDense_eq_nil (st : VizState) (h : st.fileCoordinates = []) :
    DenseV.calculateGridOrganization st = st := by
  obtain ⟨pf, fc, ct, ts, mx, gx, my, gy, lpc, cpc, sc, itf, atf, itl⟩ := st
  simp only at h
  subst h
  rfl

/-- Equation: `calculateGridOrganization` (dense) on a state with analyzed
coordinates computes the frame and tile size and hands over to
`organizeFilesIntoTiles`. -/
lemma DenseV.calcGridDense_eq_cons (st : VizState) (p : String × Coords)
    (rest : List (String × Coords)) (h : st.fileCoordinates = p :: rest) :
    DenseV.calculateGridOrganization st =
      DenseV.organizeFilesIntoTiles { st with
        minX := (st.fileCoordinates.map (fun nc => nc.2)).foldl
          (fun a (c : Coords) => min a c.minX) p.2.minX
        maxX := (st.fileCoordinates.map (fun nc => nc.2)).foldl
          (fun a (c : Coords) => max a c.maxX) p.2.maxX
        minY := (st.fileCoordinates.map (fun nc => nc.2)).foldl
          (fun a (c : Coords) => min a c.minY) p.2.minY
        maxY := (st.fileCoordinates.map (fun nc => nc.2)).foldl
          (fun a (c : Coords) => max a c.maxY) p.2.maxY
        tileSize :=
          max (((st.fileCoordinates.map (fun nc => nc.2)).foldl
                  (fun a (c : Coords) => a + c.extentX) 0)
                / ((st.fileCoordinates.map (fun nc => nc.2)).length : ℚ))
              (((st.fileCoordinates.map (fun nc => nc.2)).foldl
                  (fun a (c : Coords) => a + c.extentY) 0)
                / ((st.fileCoordinates.map (fun nc => nc.2)).length : ℚ)) * (6 / 5) } := by
  obtain ⟨pf, fc, ct, ts, mx, gx, my, gy, lpc, cpc, sc, itf, atf, itl⟩ := st
  obtain ⟨s0, c0⟩ := p
  simp only at h
  subst h
  rfl

/-- Equation: `calculateGridOrganization` (fixed 3x3) is the identity on a
state with no analyzed coordinates. -/
lemma Fixed33.calcGridFixed_eq_nil (st : VizState) (h : st.fileCoordinates = []) :
    Fixed33.calculateGridOrganization st = st := by
  obtain ⟨pf, fc, ct, ts, mx, gx, my, gy, lpc, cpc, sc, itf, atf, itl⟩ := st
  simp only at h
  subst h
  rfl

/-- Equation: `calculateGridOrganization` (fixed 3x3) on a state with analyzed
coordinates. -/
lemma Fixed33.calcGridFixed_eq_cons (st : VizState) (p : String × Coords)
    (rest : List (String × Coords)) (h : st.fileCoordinates = p :: rest) :
    Fixed33.calculateGridOrganization st =
      Fixed33.organizeFilesIntoTiles { st with
        minX := (st.fileCoordinates.map (fun nc => nc.2)).foldl
          (fun a (c : Coords) => min a c.minX) p.2.minX
        maxX := (st.fileCoordinates.map (fun nc => nc.2)).foldl
          (fun a (c : Coords) => max a c.maxX) p.2.maxX
        minY := (st.fileCoordinates.map (fun nc => nc.2)).foldl
          (fun a (c : Coords) => min a c.minY) p.2.minY
        maxY := (st.fileCoordinates.map (fun nc => nc.2)).foldl
          (fun a (c : Coords) => max a c.maxY) p.2.maxY
        tileSize :=
          max (((st.fileCoordinates.map (fun nc => nc.2)).foldl
                  (fun a (c : Coords) => a + c.extentX) 0)
                / ((st.fileCoordinates.map (fun nc => nc.2)).length : ℚ))
              (((st.fileCoordinates.map (fun nc => nc.2)).foldl
                  (fun a (c : Coords) => a + c.extentY) 0)
                / ((st.fileCoordinates.map (fun nc => nc.2)).length : ℚ)) * 2 } := by
  obtain ⟨pf, fc, ct, ts, mx, gx, my, gy, lpc, cpc, sc, itf, atf, itl⟩ := st
  obtain ⟨s0, c0⟩ := p
  simp only at h
  subst h
  rfl

/-- C1 (amended).  The claim as stated is false for the dense variant (see
`C1_boundary_counterexample`): `navigate` also accepts an out-of-bounds
destination whose key is occupied in `allTileFiles`, which the organizer can
produce when a dataset's center lies on the far boundary of the world region.
Amended invariant: under the dense policy every reachable `currentTile` is a
valid grid position or an occupied tile key (and the organizer's initial
state satisfies this whenever the derived grid is non-degenerate), and a move
whose destination is neither is rejected with the state unchanged; under the
fixed 3x3 policy `currentTile` never leaves `[0,3) x [0,3)` starting from the
organizer's initial tile, and an out-of-bounds move is rejected with the
state unchanged. -/
theorem C1_boundary_amended :
    (∀ st : VizState, DenseV.navInv st →
      ∀ ds : List Dir, DenseV.navInv (ds.foldl DenseV.navigate st)) ∧
    (∀ (st : VizState) (d : Dir),
      ¬ ((mlookup st.allTileFiles (stepDir st.currentTile d)).isSome = true ∨
         DenseV.isValidTilePosition st (stepDir st.currentTile d)) →
      DenseV.navigate st d = st) ∧
    (∀ files : List PlyFile,
      1 ≤ DenseV.totalTilesX (DenseV.analyzeAndOrganize files) →
      1 ≤ DenseV.totalTilesY (DenseV.analyzeAndOrganize files) →
      DenseV.navInv (DenseV.loadInitialTiles (DenseV.analyzeAndOrganize files))) ∧
    (∀ st : VizState, Fixed33.inGrid33 st.currentTile →
      ∀ ds : List Dir, Fixed33.inGrid33 ((ds.foldl Fixed33.navigate st).currentTile)) ∧
    (∀ (st : VizState) (d : Dir), ¬ Fixed33.inGrid33 (stepDir st.currentTile d) →
      Fixed33.navigate st d = st) ∧
    (∀ files : List PlyFile,
      Fixed33.inGrid33 ((Fixed33.analyzeAndOrganize files).currentTile)) := by
  refine ⟨?_, ?_, ?_, ?_, ?_, ?_⟩
  · intro st h ds
    induction ds generalizing st with
    | nil => exact h
    | cons d rest ih =>
      rw [List.foldl_cons]
      exact ih _ (DenseV.navigate_navInv st d h).1
  · intro st d h
    exact DenseV.navigate_reject st d h
  · intro files hx hy
    refine DenseV.navInv_loadInitialTiles _ ?_
    unfold DenseV.analyzeAndOrganize at hx hy ⊢
    cases hfc : analyzeAllFiles files with
    | nil =>
      rw [DenseV.calcGridDense_eq_nil _ (by simp [hfc])] at hx
      unfold DenseV.totalTilesX at hx
      norm_num [initState] at hx
    | cons p rest =>
      rw [DenseV.calcGridDense_eq_cons _ p rest (by simp [hfc])] at hx hy ⊢
      refine Or.inl (DenseV.organize_initialTile_valid _ ?_ ?_)
      · simpa [DenseV.organizeFilesIntoTiles, DenseV.totalTilesX, hfc] using hx
      · simpa [DenseV.organizeFilesIntoTiles, DenseV.totalTilesY, hfc] using hy
  · intro st h ds
    induction ds generalizing st with
    | nil => exact h
    | cons d rest ih =>
      rw [List.foldl_cons]
      exact ih _ (Fixed33.navigate_inGrid st d h)
  · intro st d h
    exact Fixed33.navigate_reject_oob st d h
  · intro files
    unfold Fixed33.analyzeAndOrganize
    cases hfc : analyzeAllFiles files with
    | nil =>
      rw [Fixed33.calcGridFixed_eq_nil _ (by simp [hfc])]
      unfold Fixed33.inGrid33 initState
      norm_num
    | cons p rest =>
      rw [Fixed33.calcGridFixed_eq_cons _ p rest (by simp [hfc])]
      unfold Fixed33.organizeFilesIntoTiles Fixed33.organizeFilesIntoTilesW Fixed33.inGrid33
      norm_num

/-- The state after the two moves of the counterexample run. -/
def stOutAB : VizState :=
  { stReadyAB with currentTile := (2, 0), currentPointClouds := ["b.ply"], scene := ["b.ply"] }

lemma navigateAB :
    DenseV.navigate (DenseV.navigate stReadyAB Dir.down) Dir.right = stOutAB := by
  have hne : ¬ (("a.ply" : String) = "b.ply") := by simp
  have hc : (⌈((5:ℚ)/3)⌉ : ℤ) = 2 := by
    rw [Int.ceil_eq_iff]
    norm_num
  have n1 : DenseV.navigate stReadyAB Dir.down =
      { stReadyAB with currentTile := (1, 0), currentPointClouds := [], scene := [] } := by
    simp only [DenseV.navigate, DenseV.isValidTilePosition, DenseV.totalTilesX,
      DenseV.totalTilesY, DenseV.loadCurrentTile, clearCurrentPointClouds, loadSeq,
      loadFileForTile, mapSet, mlookup, stepDir, stReadyAB, stOrgAB, stFrameAB, initState,
      tfileA, tfileB, fileA, fileB, List.foldl, List.erase, List.isEmpty]
    norm_num [-Prod.mk_zero_zero, Prod.mk.injEq, hc, hne]
  rw [n1]
  simp only [DenseV.navigate, DenseV.isValidTilePosition, DenseV.totalTilesX,
    DenseV.totalTilesY, DenseV.loadCurrentTile, clearCurrentPointClouds, loadSeq,
    loadFileForTile, mapSet, mlookup, stepDir, stReadyAB, stOrgAB, stFrameAB, initState,
    tfileA, tfileB, fileA, fileB, List.foldl, List.erase, List.isEmpty]
  norm_num [-Prod.mk_zero_zero, Prod.mk.injEq, hc, hne, stOutAB, stReadyAB, stOrgAB,
    stFrameAB, initState, tfileA, tfileB, fileA, fileB]

/-- C1, counterexample.  Running the real pipeline on two datasets — one
spanning `[0,10] x [0,10]`, one a zero-extent dataset at `x = 12` — derives a
2x2 grid, yet from the organizer's initial tile `(1,1)` the moves `down` then
`right` are both accepted and leave `currentTile = (2,0)`, which is outside
`[0, gridWidth) x [0, gridHeight)`: the dense `navigate` does produce an
out-of-bounds `currentTile`, contradicting the claim as stated. -/
theorem C1_boundary_counterexample :
    (DenseV.navigate (DenseV.navigate
        (DenseV.loadInitialTiles (DenseV.analyzeAndOrganize [fileA, fileB])) Dir.down)
      Dir.right).currentTile = (2, 0) ∧
    DenseV.totalTilesX (DenseV.navigate (DenseV.navigate
        (DenseV.loadInitialTiles (DenseV.analyzeAndOrganize [fileA, fileB])) Dir.down)
      Dir.right) = 2 ∧
    DenseV.totalTilesY (DenseV.navigate (DenseV.navigate
        (DenseV.loadInitialTiles (DenseV.analyzeAndOrganize [fileA, fileB])) Dir.down)
      Dir.right) = 2 ∧
    ¬ DenseV.isValidTilePosition (DenseV.navigate (DenseV.navigate
        (DenseV.loadInitialTiles (DenseV.analyzeAndOrganize [fileA, fileB])) Dir.down)
      Dir.right) (2, 0) := by
  rw [pipelineAB, navigateAB]
  have hc : (⌈((5:ℚ)/3)⌉ : ℤ) = 2 := by
    rw [Int.ceil_eq_iff]
    norm_num
  have hx : DenseV.totalTilesX stOutAB = 2 := by
    norm_num [DenseV.totalTilesX, stOutAB, stReadyAB, stOrgAB, stFrameAB, initState]
  have hy : DenseV.totalTilesY stOutAB = 2 := by
    norm_num [DenseV.totalTilesY, stOutAB, stReadyAB, stOrgAB, stFrameAB, initState, hc]
  refine ⟨rfl, hx, hy, ?_⟩
  unfold DenseV.isValidTilePosition
  rw [hx]
  intro h
  omega

/-- A synthetic navigation state used by witnesses: one occupied tile `(0,0)`,
which is also the current tile. -/
def cW : Coords := ⟨0, 0, 0, 0, 0, 0, 0, 0, 0, 0, 0, 0⟩

def fileW : PlyFile := { name := "w.ply", geometry := none, loadOk := true }

def tfW : TileFile := { file := fileW, originalCoords := cW, tileX := 0, tileY := 0 }

def stW : VizState :=
  { initState with allTileFiles := [((0, 0), [tfW])], initialTilesLoaded := true }

/-- C1, witness: the amended theorem applied at concrete inputs — the
invariant holds after concrete move sequences from `stW` and from the
organizer's output on `[fileA, fileB]`, and concrete out-of-grid moves are
rejected. -/
theorem C1_boundary_witness :
    DenseV.navInv (([Dir.right, Dir.left]).foldl DenseV.navigate stW) ∧
    DenseV.navigate stW Dir.left = stW ∧
    DenseV.navInv (DenseV.loadInitialTiles (DenseV.analyzeAndOrganize [fileA, fileB])) ∧
    Fixed33.inGrid33 (([Dir.up, Dir.up, Dir.up]).foldl Fixed33.navigate stW).currentTile ∧
    Fixed33.navigate stW Dir.left = stW ∧
    Fixed33.inGrid33 ((Fixed33.analyzeAndOrganize [fileA, fileB]).currentTile) := by
  have hinv : DenseV.navInv stW := Or.inr rfl
  have hrej : ¬ ((mlookup stW.allTileFiles (stepDir stW.currentTile Dir.left)).isSome = true ∨
      DenseV.isValidTilePosition stW (stepDir stW.currentTile Dir.left)) := by
    simp only [stW, initState, stepDir, mlookup, DenseV.isValidTilePosition]
    norm_num [-Prod.mk_zero_zero, Prod.mk.injEq]
  have hx : 1 ≤ DenseV.totalTilesX (DenseV.analyzeAndOrganize [fileA, fileB]) := by
    rw [organizeAB]
    norm_num [DenseV.totalTilesX, stOrgAB, stFrameAB, initState]
  have hy : 1 ≤ DenseV.totalTilesY (DenseV.analyzeAndOrganize [fileA, fileB]) := by
    have hc : (⌈((5:ℚ)/3)⌉ : ℤ) = 2 := by
      rw [Int.ceil_eq_iff]
      norm_num
    rw [organizeAB]
    norm_num [DenseV.totalTilesY, stOrgAB, stFrameAB, initState, hc]
  have hg : Fixed33.inGrid33 stW.currentTile := by
    unfold Fixed33.inGrid33 stW initState
    norm_num
  have hoob : ¬ Fixed33.inGrid33 (stepDir stW.currentTile Dir.left) := by
    unfold Fixed33.inGrid33 stW initState stepDir
    norm_num
  exact ⟨C1_boundary_amended.1 stW hinv [Dir.right, Dir.left],
    C1_boundary_amended.2.1 stW Dir.left hrej,
    C1_boundary_amended.2.2.1 [fileA, fileB] hx hy,
    C1_boundary_amended.2.2.2.1 stW hg [Dir.up, Dir.up, Dir.up],
    C1_boundary_amended.2.2.2.2.1 stW Dir.left hoob,
    C1_boundary_amended.2.2.2.2.2 [fileA, fileB]⟩

/-! ### C2: resident-set consistency -/

/-- C2 (amended).  The claim as stated is false (see
`C2_resident_counterexample`): a failed load does not only exclude the failed
dataset — the awaited loop of `loadCurrentTile` has no try/catch, so the
rejection aborts the remaining loads of the plan.  Amended: after
`loadCurrentTile` the resident set (`currentPointClouds`, and the point-cloud
part of the scene, given the scene held exactly the previous resident set)
equals the names of the longest prefix of the tile's assigned list, under the
active mode, all of whose loads succeed; in particular nothing loaded for the
previously active tile remains resident. -/
theorem C2_resident_amended (st : VizState) (h : st.scene = st.currentPointClouds) :
    (DenseV.loadCurrentTile st).currentPointClouds
        = namesOf ((if st.initialTilesLoaded then
              (mlookup st.allTileFiles st.currentTile).getD []
            else (mlookup st.initialTileFiles st.currentTile).getD []).takeWhile
            (fun tf => tf.file.loadOk)) ∧
    (DenseV.loadCurrentTile st).scene
        = namesOf ((if st.initialTilesLoaded then
              (mlookup st.allTileFiles st.currentTile).getD []
            else (mlookup st.initialTileFiles st.currentTile).getD []).takeWhile
            (fun tf => tf.file.loadOk)) ∧
    (Fixed33.loadCurrentTile st).currentPointClouds
        = namesOf (((mlookup st.allTileFiles st.currentTile).getD []).takeWhile
            (fun tf => tf.file.loadOk)) ∧
    (Fixed33.loadCurrentTile st).scene
        = namesOf (((mlookup st.allTileFiles st.currentTile).getD []).takeWhile
            (fun tf => tf.file.loadOk)) := by
  have hsc := clearCurrentPointClouds_scene st h
  obtain ⟨p1, p2, p3, p4, p5, p6, p7, p8, p9, p10, p11, p12, p13⟩ :=
    clearCurrentPointClouds_proj st
  unfold DenseV.loadCurrentTile Fixed33.loadCurrentTile
  obtain ⟨q1, q2⟩ := loadSeq_clouds (clearCurrentPointClouds st)
    (if (clearCurrentPointClouds st).initialTilesLoaded then
        (mlookup (clearCurrentPointClouds st).allTileFiles
          (clearCurrentPointClouds st).currentTile).getD []
      else
        (mlookup (clearCurrentPointClouds st).initialTileFiles
          (clearCurrentPointClouds st).currentTile).getD [])
  obtain ⟨q3, q4⟩ := loadSeq_clouds (clearCurrentPointClouds st)
    ((mlookup (clearCurrentPointClouds st).allTileFiles
      (clearCurrentPointClouds st).currentTile).getD [])
  simp only [p3, p10, p11, p12, p13, hsc, List.nil_append] at q1 q2 q3 q4 ⊢
  exact ⟨q1, q2, q3, q4⟩

/-- Three datasets sharing one tile: the second one's render-load fails. -/
def fileA2 : PlyFile := { name := "a2.ply", geometry := none, loadOk := true }

def fileB2 : PlyFile := { name := "b2.ply", geometry := none, loadOk := false }

def fileC2 : PlyFile := { name := "c2.ply", geometry := none, loadOk := true }

def stC2 : VizState :=
  { initState with
    currentTile := (0, 0)
    allTileFiles := [((0, 0),
      [{ file := fileA2, originalCoords := cW, tileX := 0, tileY := 0 },
       { file := fileB2, originalCoords := cW, tileX := 0, tileY := 0 },
       { file := fileC2, originalCoords := cW, tileX := 0, tileY := 0 }])]
    currentPointClouds := ["p.ply"]
    scene := ["p.ply"]
    initialTilesLoaded := true }

/-- C2, counterexample.  On a tile assigned `[a2, b2, c2]` where only `b2`'s
load fails, `loadCurrentTile` leaves exactly `[a2]` resident: the set
`assigned minus failed` would be `[a2, c2]`, so the resident set does not
equal the assigned datasets minus those whose load failed — the rejection of
`b2` also aborts the load of `c2`. -/
theorem C2_resident_counterexample :
    (DenseV.loadCurrentTile stC2).currentPointClouds = ["a2.ply"] ∧
    namesOf (((mlookup stC2.allTileFiles stC2.currentTile).getD []).filter
        (fun tf => tf.file.loadOk)) = ["a2.ply", "c2.ply"] ∧
    ("a2.ply" :: []) ≠ ["a2.ply", "c2.ply"] := by
  refine ⟨rfl, rfl, ?_⟩
  decide

/-- C2, witness: the amended theorem applied at `stC2`, whose scene holds
exactly its resident set; the resident set after `loadCurrentTile` is the
longest successfully-loading prefix `[a2]`. -/
theorem C2_resident_witness :
    stC2.scene = stC2.currentPointClouds ∧
    (DenseV.loadCurrentTile stC2).currentPointClouds
      = namesOf ((if stC2.initialTilesLoaded then
            (mlookup stC2.allTileFiles stC2.currentTile).getD []
          else (mlookup stC2.initialTileFiles stC2.currentTile).getD []).takeWhile
          (fun tf => tf.file.loadOk)) :=
  ⟨rfl, (C2_resident_amended stC2 rfl).1⟩

/-! ### C3: partition machinery -/

/-- Characterization of the analysis loop when all file names are distinct:
the produced map lists the successful files in input order, the error list
the failed ones. -/
lemma analyzeLoop_eq (files : List PlyFile) (m0 : List (String × Coords)) (e0 : List String)
    (hnd : (files.map PlyFile.name).Nodup)
    (hdis : ∀ p ∈ m0, p.1 ∉ files.map PlyFile.name) :
    analyzeLoop files m0 e0
      = (m0 ++ files.filterMap
            (fun f => Option.map (fun b => (f.name, extractCoordinatesFromFile b)) f.geometry),
         e0 ++ (files.filter (fun f => f.geometry.isNone)).map PlyFile.name) := by
  induction files generalizing m0 e0 with
  | nil => simp [analyzeLoop]
  | cons f rest ih =>
    have h0 := hnd
    rw [List.map_cons, List.nodup_cons] at h0
    obtain ⟨hhead, hnd2⟩ := h0
    have hdis2 : ∀ p ∈ m0, p.1 ∉ rest.map PlyFile.name := by
      intro p hp hm
      exact hdis p hp (by simp [hm])
    cases hg : f.geometry with
    | some b =>
      have hdis3 : ∀ p ∈ m0 ++ [(f.name, extractCoordinatesFromFile b)],
          p.1 ∉ rest.map PlyFile.name := by
        intro p hp
        rcases List.mem_append.mp hp with h1 | h2
        · exact hdis2 p h1
        · simp only [List.mem_singleton] at h2
          subst h2
          exact hhead
      have hIH := ih (m0 ++ [(f.name, extractCoordinatesFromFile b)]) e0 hnd2 hdis3
      simp only [analyzeLoop, hg]
      rw [mapSet_append_of_not_mem m0 f.name _
        (fun p hp he => hdis p hp (by simp [he]))]
      rw [hIH]
      simp [hg, List.filterMap_cons, List.filter_cons]
    | none =>
      have hIH := ih m0 (e0 ++ [f.name]) hnd2 hdis2
      simp only [analyzeLoop, hg]
      rw [hIH]
      simp [hg, List.filterMap_cons, List.filter_cons]

/-- `fileCoordinates` after `analyzeAllFiles`, names distinct. -/
lemma analyzeAllFiles_eq (files : List PlyFile) (hnd : (files.map PlyFile.name).Nodup) :
    analyzeAllFiles files
      = files.filterMap
          (fun f => Option.map (fun b => (f.name, extractCoordinatesFromFile b)) f.geometry) := by
  unfold analyzeAllFiles analyzeAllFilesE
  rw [analyzeLoop_eq files [] [] hnd (by simp)]
  simp

/-- The `console.error` reports of `analyzeAllFiles`, names distinct. -/
lemma analyzeErrors_eq (files : List PlyFile) (hnd : (files.map PlyFile.name).Nodup) :
    (analyzeAllFilesE files).2 = (files.filter (fun f => f.geometry.isNone)).map PlyFile.name := by
  unfold analyzeAllFilesE
  rw [analyzeLoop_eq files [] [] hnd (by simp)]
  simp

/-- Keys of the analysis map are the names of the successful files. -/
lemma filterMap_fst (files : List PlyFile) :
    (files.filterMap
        (fun f => Option.map (fun b => (f.name, extractCoordinatesFromFile b)) f.geometry)).map
        Prod.fst
      = (files.filter (fun f => f.geometry.isSome)).map PlyFile.name := by
  induction files with
  | nil => simp
  | cons f rest ih =>
    cases hg : f.geometry with
    | some b => simp [List.filterMap_cons, List.filter_cons, hg, ih]
    | none => simp [List.filterMap_cons, List.filter_cons, hg, ih]

/-- With distinct names, `find` by name retrieves the member itself. -/
lemma find?_name_eq (files : List PlyFile) (f : PlyFile)
    (hnd : (files.map PlyFile.name).Nodup) (hf : f ∈ files) :
    files.find? (fun g => g.name == f.name) = some f := by
  induction files with
  | nil => simp at hf
  | cons g rest ih =>
    have h0 := hnd
    rw [List.map_cons, List.nodup_cons] at h0
    obtain ⟨hhead, hnd2⟩ := h0
    rcases List.mem_cons.mp hf with h1 | hmem
    · subst h1
      simp [List.find?_cons_of_pos]
    · have hne : (g.name == f.name) = false := by
        rw [beq_eq_false_iff_ne]
        intro he
        refine hhead ?_
        rw [he]
        exact List.mem_map_of_mem _ hmem
      rw [List.find?_cons_of_neg _ (by simp [hne])]
      exact ih hnd2 hmem

lemma mlookup_cons_self {α β : Type} [DecidableEq α] (a : α) (b : β) (r : List (α × β)) :
    mlookup ((a, b) :: r) a = some b := by
  simp [mlookup]

lemma mlookup_cons_ne {α β : Type} [DecidableEq α] (a k : α) (b : β) (r : List (α × β))
    (h : a ≠ k) : mlookup ((a, b) :: r) k = mlookup r k := by
  simp [mlookup, h]

/-- Counting names through the dense assignment loop: each processed entry
whose `find` succeeds contributes its key name exactly once. -/
lemma organizeLoop_cnt (st : VizState) (l : List (String × Coords))
    (m0 : List ((ℤ × ℤ) × List TileFile)) (s : String)
    (hall : ∀ nc ∈ l, ∃ f, st.plyFiles.find? (fun g => g.name == nc.1) = some f ∧
        f.name = nc.1) :
    cnt s (namesOf (tileVals (DenseV.organizeLoop st l m0)))
      = cnt s (namesOf (tileVals m0)) + cnt s (l.map Prod.fst) := by
  induction l generalizing m0 with
  | nil => simp [DenseV.organizeLoop, cnt]
  | cons nc rest ih =>
    obtain ⟨f, hfind, hname⟩ := hall nc (by simp)
    have hIH := ih
      (mapPush m0 (DenseV.assignTile st nc.2)
        { file := f, originalCoords := nc.2, tileX := (DenseV.assignTile st nc.2).1,
          tileY := (DenseV.assignTile st nc.2).2 })
      (fun x hx => hall x (by simp [hx]))
    simp only [DenseV.organizeLoop, hfind]
    rw [hIH, tileVals_mapPush_cnt]
    simp only [List.map_cons, cnt, hname]
    ring

/-- Keys of `mapPush` when the key is already present. -/
lemma mapPush_keys_of_mem {α : Type} [DecidableEq α] (m : List (α × List TileFile)) (k : α)
    (v : TileFile) (h : k ∈ m.map Prod.fst) :
    (mapPush m k v).map Prod.fst = m.map Prod.fst := by
  induction m with
  | nil => simp at h
  | cons p r ih =>
    obtain ⟨a, l⟩ := p
    by_cases ha : a = k
    · subst ha
      simp [mapPush]
    · rw [List.map_cons] at h
      rcases List.mem_cons.mp h with h1 | h2
      · exact absurd h1.symm ha
      · simp [mapPush, ha, ih h2]

/-- Keys of `mapPush` when the key is new. -/
lemma mapPush_keys_of_not_mem {α : Type} [DecidableEq α] (m : List (α × List TileFile)) (k : α)
    (v : TileFile) (h : k ∉ m.map Prod.fst) :
    (mapPush m k v).map Prod.fst = m.map Prod.fst ++ [k] := by
  induction m with
  | nil => simp [mapPush]
  | cons p r ih =>
    obtain ⟨a, l⟩ := p
    have ha : a ≠ k := by
      intro he
      exact h (by simp [he])
    have hk : k ∉ r.map Prod.fst := by
      intro hm
      exact h (by simp [hm])
    simp [mapPush, ha, ih hk]

/-- The assignment loop preserves distinctness of tile keys. -/
lemma organizeLoop_keys_nodup (st : VizState) (l : List (String × Coords))
    (m0 : List ((ℤ × ℤ) × List TileFile)) (h : (m0.map Prod.fst).Nodup) :
    ((DenseV.organizeLoop st l m0).map Prod.fst).Nodup := by
  induction l generalizing m0 with
  | nil => simpa [DenseV.organizeLoop] using h
  | cons nc rest ih =>
    simp only [DenseV.organizeLoop]
    cases hfind : st.plyFiles.find? (fun g => g.name == nc.1) with
    | none => exact ih m0 h
    | some f =>
      refine ih _ ?_
      by_cases hk : DenseV.assignTile st nc.2 ∈ m0.map Prod.fst
      · rw [mapPush_keys_of_mem _ _ _ hk]
        exact h
      · rw [mapPush_keys_of_not_mem _ _ _ hk]
        simp [List.nodup_append, h, hk]

/-- A single tile's names are counted inside the whole catalog. -/
lemma cnt_lookup_le {α : Type} [DecidableEq α] (m : List (α × List TileFile)) (k : α)
    (l : List TileFile) (h : mlookup m k = some l) (s : String) :
    cnt s (namesOf l) ≤ cnt s (namesOf (tileVals m)) := by
  induction m with
  | nil => simp [mlookup] at h
  | cons p r ih =>
    obtain ⟨a, vl⟩ := p
    by_cases ha : a = k
    · subst ha
      rw [mlookup_cons_self] at h
      obtain rfl : vl = l := by injection h
      simp [tileVals, namesOf_append, cnt_append]
    · rw [mlookup_cons_ne _ _ _ _ ha] at h
      calc cnt s (namesOf l) ≤ cnt s (namesOf (tileVals r)) := ih h
      _ ≤ cnt s (namesOf (tileVals ((a, vl) :: r))) := by
          simp [tileVals, namesOf_append, cnt_append]

/-- Two distinct keys' tiles are counted disjointly inside the catalog. -/
lemma cnt_two_lookups {α : Type} [DecidableEq α] (m : List (α × List TileFile))
    (k1 k2 : α) (l1 l2 : List TileFile) (s : String)
    (h1 : mlookup m k1 = some l1) (h2 : mlookup m k2 = some l2) (hne : k1 ≠ k2) :
    cnt s (namesOf l1) + cnt s (namesOf l2) ≤ cnt s (namesOf (tileVals m)) := by
  induction m with
  | nil => simp [mlookup] at h1
  | cons p r ih =>
    obtain ⟨a, vl⟩ := p
    have hexp : cnt s (namesOf (tileVals ((a, vl) :: r)))
        = cnt s (namesOf vl) + cnt s (namesOf (tileVals r)) := by
      simp [tileVals, namesOf_append, cnt_append]
    by_cases ha1 : a = k1
    · subst ha1
      rw [mlookup_cons_self] at h1
      obtain rfl : vl = l1 := by injection h1
      rw [mlookup_cons_ne _ _ _ _ hne] at h2
      rw [hexp]
      exact Nat.add_le_add_left (cnt_lookup_le r k2 l2 h2 s) _
    · rw [mlookup_cons_ne _ _ _ _ ha1] at h1
      by_cases ha2 : a = k2
      · subst ha2
        rw [mlookup_cons_self] at h2
        have hvl : vl = l2 := by injection h2
        rw [hexp, ← hvl]
        calc cnt s (namesOf l1) + cnt s (namesOf vl)
            = cnt s (namesOf vl) + cnt s (namesOf l1) := by ring
        _ ≤ cnt s (namesOf vl) + cnt s (namesOf (tileVals r)) :=
            Nat.add_le_add_left (cnt_lookup_le r k1 l1 h1 s) _
      · rw [mlookup_cons_ne _ _ _ _ ha2] at h2
        rw [hexp]
        calc cnt s (namesOf l1) + cnt s (namesOf l2)
            ≤ cnt s (namesOf (tileVals r)) := ih h1 h2
        _ ≤ cnt s (namesOf vl) + cnt s (namesOf (tileVals r)) := Nat.le_add_left _ _

lemma cnt_pos_of_mem {α : Type} [DecidableEq α] {a : α} {l : List α} (h : a ∈ l) :
    1 ≤ cnt a l := by
  induction l with
  | nil => simp at h
  | cons b r ih =>
    rcases List.mem_cons.mp h with h1 | h2
    · subst h1
      simp [cnt]
    · simp only [cnt]
      have := ih h2
      omega

lemma cnt_le_one_of_nodup {α : Type} [DecidableEq α] {l : List α} (hnd : l.Nodup) (a : α) :
    cnt a l ≤ 1 := by
  by_cases h : a ∈ l
  · exact le_of_eq (cnt_eq_one_of_mem_nodup hnd h)
  · simp [cnt_eq_zero_of_not_mem h]

/-- Core partition property of the dense organizer on a state holding the
analysis of its own file list. -/
lemma denseOrganize_partition (st : VizState)
    (hnd : (st.plyFiles.map PlyFile.name).Nodup)
    (hfc : st.fileCoordinates = analyzeAllFiles st.plyFiles) :
    (((DenseV.organizeFilesIntoTiles st).allTileFiles.map Prod.fst).Nodup) ∧
    (∀ s, cnt s (namesOf (tileVals (DenseV.organizeFilesIntoTiles st).allTileFiles))
        = cnt s ((st.plyFiles.filter (fun f => f.geometry.isSome)).map PlyFile.name)) := by
  have hall : ∀ nc ∈ st.fileCoordinates,
      ∃ f, st.plyFiles.find? (fun g => g.name == nc.1) = some f ∧ f.name = nc.1 := by
    intro nc hnc
    rw [hfc, analyzeAllFiles_eq st.plyFiles hnd] at hnc
    obtain ⟨f, hf, hmap⟩ := List.mem_filterMap.mp hnc
    cases hg : f.geometry with
    | none =>
      rw [hg] at hmap
      exact Option.noConfusion hmap
    | some b =>
      rw [hg] at hmap
      simp only [Option.map_some', Option.some.injEq] at hmap
      refine ⟨f, ?_, ?_⟩
      · rw [← hmap]
        exact find?_name_eq st.plyFiles f hnd hf
      · rw [← hmap]
  constructor
  · exact organizeLoop_keys_nodup st st.fileCoordinates [] (by simp)
  · intro s
    have h1 := organizeLoop_cnt st st.fileCoordinates [] s hall
    simp only [tileVals, namesOf, List.map_nil, cnt] at h1
    show cnt s (namesOf (tileVals (DenseV.organizeLoop st st.fileCoordinates []))) = _
    unfold namesOf
    rw [h1, hfc, analyzeAllFiles_eq st.plyFiles hnd, filterMap_fst]
    omega

/-- The name-count and key-distinctness facts of the dense pipeline output,
shared by the partition and error-handling analyses. -/
lemma analyzeAndOrganize_cnt (files : List PlyFile) (hnd : (files.map PlyFile.name).Nodup) :
    (((DenseV.analyzeAndOrganize files).allTileFiles.map Prod.fst).Nodup) ∧
    (∀ s : String, cnt s (namesOf (tileVals (DenseV.analyzeAndOrganize files).allTileFiles))
        = cnt s ((files.filter (fun f => f.geometry.isSome)).map PlyFile.name)) := by
  unfold DenseV.analyzeAndOrganize
  cases hfc : analyzeAllFiles files with
  | nil =>
    rw [DenseV.calcGridDense_eq_nil _ (by simp [hfc])]
    have h0 : (files.filter (fun f => f.geometry.isSome)).map PlyFile.name = [] := by
      rw [← filterMap_fst, ← analyzeAllFiles_eq files hnd, hfc]
      rfl
    constructor
    · simp [initState]
    · intro s
      simp [initState, tileVals, namesOf, cnt, h0]
  | cons p rest =>
    rw [DenseV.calcGridDense_eq_cons _ p rest (by simp [hfc])]
    exact denseOrganize_partition _ (by simpa using hnd) (by simp [hfc])

/-- C3: under the dense policy, with distinct dataset names, every dataset
with an extracted bounding box is assigned to exactly one tile (it occurs
exactly once across all tiles' lists and never in two different tiles), a
dataset whose extraction failed is assigned nowhere, and the name-multiset of
the union of all tiles equals the successfully analyzed inputs. -/
theorem C3_partition (files : List PlyFile) (hnd : (files.map PlyFile.name).Nodup) :
    (((DenseV.analyzeAndOrganize files).allTileFiles.map Prod.fst).Nodup) ∧
    (∀ s : String, cnt s (namesOf (tileVals (DenseV.analyzeAndOrganize files).allTileFiles))
        = cnt s ((files.filter (fun f => f.geometry.isSome)).map PlyFile.name)) ∧
    (∀ f ∈ files, f.geometry.isSome = true →
        cnt f.name (namesOf (tileVals (DenseV.analyzeAndOrganize files).allTileFiles)) = 1) ∧
    (∀ f ∈ files, f.geometry = none →
        cnt f.name (namesOf (tileVals (DenseV.analyzeAndOrganize files).allTileFiles)) = 0) ∧
    (∀ (k1 k2 : ℤ × ℤ) (l1 l2 : List TileFile) (s : String),
        mlookup (DenseV.analyzeAndOrganize files).allTileFiles k1 = some l1 →
        mlookup (DenseV.analyzeAndOrganize files).allTileFiles k2 = some l2 →
        s ∈ namesOf l1 → s ∈ namesOf l2 → k1 = k2) := by
  have hsubnd : ((files.filter (fun f => f.geometry.isSome)).map PlyFile.name).Nodup :=
    List.Nodup.sublist ((List.filter_sublist files).map PlyFile.name) hnd
  have hmain := analyzeAndOrganize_cnt files hnd
  refine ⟨hmain.1, hmain.2, ?_, ?_, ?_⟩
  · intro f hf hg
    rw [hmain.2 f.name]
    refine cnt_eq_one_of_mem_nodup hsubnd ?_
    exact List.mem_map_of_mem _ (List.mem_filter.mpr ⟨hf, hg⟩)
  · intro f hf hg
    rw [hmain.2 f.name]
    refine cnt_eq_zero_of_not_mem ?_
    intro hmem
    obtain ⟨g, hgf, hge⟩ := List.mem_map.mp hmem
    have hgm := List.mem_filter.mp hgf
    have : g = f := List.inj_on_of_nodup_map hnd hgm.1 hf hge
    rw [this, hg] at hgm
    simp at hgm
  · intro k1 k2 l1 l2 s h1 h2 hs1 hs2
    by_contra hne
    have hb := cnt_two_lookups (DenseV.analyzeAndOrganize files).allTileFiles k1 k2 l1 l2 s
      h1 h2 hne
    rw [hmain.2 s] at hb
    have hle := cnt_le_one_of_nodup hsubnd s
    have hp1 := cnt_pos_of_mem hs1
    have hp2 := cnt_pos_of_mem hs2
    omega

/-- A dataset whose bounding-box extraction fails. -/
def fileBad : PlyFile := { name := "bad.ply", geometry := none, loadOk := true }

/-- C3, witness: on the concrete inputs `[fileA, fileBad]` (distinct names,
one extraction failure) the successfully analyzed dataset is assigned exactly
once and the failed one nowhere. -/
theorem C3_partition_witness :
    cnt "a.ply" (namesOf (tileVals (DenseV.analyzeAndOrganize [fileA, fileBad]).allTileFiles))
      = 1 ∧
    cnt "bad.ply" (namesOf (tileVals (DenseV.analyzeAndOrganize [fileA, fileBad]).allTileFiles))
      = 0 := by
  have h := C3_partition [fileA, fileBad] (by decide)
  exact ⟨h.2.2.1 fileA (List.mem_cons_self _ _) rfl,
    h.2.2.2.1 fileBad (List.mem_cons_of_mem _ (List.mem_cons_self _ _)) rfl⟩

/-! ### C4: tile-coordinate formula machinery -/

lemma foldl_min_le (f : Coords → ℚ) (cs : List Coords) (q : ℚ) :
    cs.foldl (fun a c => min a (f c)) q ≤ q ∧
    ∀ c ∈ cs, cs.foldl (fun a c => min a (f c)) q ≤ f c := by
  induction cs generalizing q with
  | nil => simp
  | cons c r ih =>
    obtain ⟨h1, h2⟩ := ih (min q (f c))
    refine ⟨le_trans h1 (min_le_left _ _), ?_⟩
    intro c2 hc2
    rcases List.mem_cons.mp hc2 with h3 | h3
    · subst h3
      exact le_trans h1 (min_le_right _ _)
    · exact h2 c2 h3

lemma foldl_min_attained (f : Coords → ℚ) (cs : List Coords) (q : ℚ) :
    cs.foldl (fun a c => min a (f c)) q = q ∨
    ∃ c ∈ cs, cs.foldl (fun a c => min a (f c)) q = f c := by
  induction cs generalizing q with
  | nil => simp
  | cons c r ih =>
    rcases ih (min q (f c)) with h | ⟨c2, hc2, he⟩
    · rcases min_choice q (f c) with hm | hm
      · left
        rw [List.foldl_cons, h, hm]
      · right
        exact ⟨c, by simp, by rw [List.foldl_cons, h, hm]⟩
    · right
      exact ⟨c2, by simp [hc2], by rw [List.foldl_cons, he]⟩

lemma foldl_max_ge (f : Coords → ℚ) (cs : List Coords) (q : ℚ) :
    q ≤ cs.foldl (fun a c => max a (f c)) q ∧
    ∀ c ∈ cs, f c ≤ cs.foldl (fun a c => max a (f c)) q := by
  induction cs generalizing q with
  | nil => simp
  | cons c r ih =>
    obtain ⟨h1, h2⟩ := ih (max q (f c))
    refine ⟨le_trans (le_max_left _ _) h1, ?_⟩
    intro c2 hc2
    rcases List.mem_cons.mp hc2 with h3 | h3
    · subst h3
      exact le_trans (le_max_right _ _) h1
    · exact h2 c2 h3

lemma foldl_max_attained (f : Coords → ℚ) (cs : List Coords) (q : ℚ) :
    cs.foldl (fun a c => max a (f c)) q = q ∨
    ∃ c ∈ cs, cs.foldl (fun a c => max a (f c)) q = f c := by
  induction cs generalizing q with
  | nil => simp
  | cons c r ih =>
    rcases ih (max q (f c)) with h | ⟨c2, hc2, he⟩
    · rcases max_choice q (f c) with hm | hm
      · left
        rw [List.foldl_cons, h, hm]
      · right
        exact ⟨c, by simp, by rw [List.foldl_cons, h, hm]⟩
    · right
      exact ⟨c2, by simp [hc2], by rw [List.foldl_cons, he]⟩

/-- Every entry found in the catalog built by the assignment loop either was
already in the accumulator or stems from a processed coordinate record: its
key is the `assignTile` bucket of those coordinates, its stored fields echo
them, and its file is the `find` result for the record's name. -/
lemma organizeLoop_mem (st : VizState) (l : List (String × Coords))
    (m0 : List ((ℤ × ℤ) × List TileFile)) (k : ℤ × ℤ) (tl : List TileFile) (tf : TileFile)
    (hlk : mlookup (DenseV.organizeLoop st l m0) k = some tl) (htf : tf ∈ tl) :
    (∃ tl0, mlookup m0 k = some tl0 ∧ tf ∈ tl0) ∨
    (∃ nc ∈ l, k = DenseV.assignTile st nc.2 ∧ tf.originalCoords = nc.2 ∧
      tf.tileX = k.1 ∧ tf.tileY = k.2 ∧
      st.plyFiles.find? (fun g => g.name == nc.1) = some tf.file) := by
  induction l generalizing m0 with
  | nil =>
    left
    exact ⟨tl, by simpa [DenseV.organizeLoop] using hlk, htf⟩
  | cons nc rest ih =>
    simp only [DenseV.organizeLoop] at hlk
    cases hfind : st.plyFiles.find? (fun g => g.name == nc.1) with
    | none =>
      rw [hfind] at hlk
      rcases ih m0 hlk with h | ⟨nc2, hm, hrest⟩
      · exact Or.inl h
      · exact Or.inr ⟨nc2, by simp [hm], hrest⟩
    | some f =>
      rw [hfind] at hlk
      rcases ih _ hlk with ⟨tl0, hl0, htf0⟩ | ⟨nc2, hm, hrest⟩
      · rw [mlookup_mapPush] at hl0
        by_cases hk : k = DenseV.assignTile st nc.2
        · rw [if_pos hk] at hl0
          have htl0 : tl0 = (mlookup m0 (DenseV.assignTile st nc.2)).getD []
              ++ [{ file := f, originalCoords := nc.2,
                    tileX := (DenseV.assignTile st nc.2).1,
                    tileY := (DenseV.assignTile st nc.2).2 }] := by
            injection hl0.symm
          subst htl0
          rcases List.mem_append.mp htf0 with hin | hin
          · cases hm0 : mlookup m0 (DenseV.assignTile st nc.2) with
            | none =>
              rw [hm0] at hin
              simp at hin
            | some tl1 =>
              rw [hm0] at hin
              simp only [Option.getD_some] at hin
              exact Or.inl ⟨tl1, by rw [hk, hm0], hin⟩
          · simp only [List.mem_singleton] at hin
            subst hin
            exact Or.inr ⟨nc, by simp, hk, rfl, by rw [hk], by rw [hk], hfind⟩
        · rw [if_neg hk] at hl0
          exact Or.inl ⟨tl0, hl0, htf0⟩
      · exact Or.inr ⟨nc2, by simp [hm], hrest⟩

/-- C4: under the dense policy (with distinct names, at least one analyzed
dataset, and a positive tile size), every catalog entry sits under the key
`(floor((centerX - minX)/tileSize), floor((centerY - minY)/tileSize))` of its
own extracted coordinates, where `minX`/`minY` (resp. `maxX`/`maxY`) are the
component-wise minima (resp. maxima) of all analyzed datasets' bounding
boxes, and the grid extent is `ceil((max - min)/tileSize)` per axis. -/
theorem C4_tile_formula (files : List PlyFile) (hnd : (files.map PlyFile.name).Nodup)
    (hne : analyzeAllFiles files ≠ [])
    (_hts : 0 < (DenseV.analyzeAndOrganize files).tileSize) :
    (∀ (k : ℤ × ℤ) (tl : List TileFile) (tf : TileFile),
        mlookup (DenseV.analyzeAndOrganize files).allTileFiles k = some tl → tf ∈ tl →
        k = (⌊(tf.originalCoords.centerX - (DenseV.analyzeAndOrganize files).minX)
                / (DenseV.analyzeAndOrganize files).tileSize⌋,
             ⌊(tf.originalCoords.centerY - (DenseV.analyzeAndOrganize files).minY)
                / (DenseV.analyzeAndOrganize files).tileSize⌋) ∧
        tf.tileX = k.1 ∧ tf.tileY = k.2 ∧
        ∃ b, tf.file.geometry = some b ∧
          tf.originalCoords = extractCoordinatesFromFile b) ∧
    (∀ c ∈ (analyzeAllFiles files).map (fun nc => nc.2),
        (DenseV.analyzeAndOrganize files).minX ≤ c.minX) ∧
    (∃ c ∈ (analyzeAllFiles files).map (fun nc => nc.2),
        (DenseV.analyzeAndOrganize files).minX = c.minX) ∧
    (∀ c ∈ (analyzeAllFiles files).map (fun nc => nc.2),
        c.maxX ≤ (DenseV.analyzeAndOrganize files).maxX) ∧
    (∃ c ∈ (analyzeAllFiles files).map (fun nc => nc.2),
        (DenseV.analyzeAndOrganize files).maxX = c.maxX) ∧
    (∀ c ∈ (analyzeAllFiles files).map (fun nc => nc.2),
        (DenseV.analyzeAndOrganize files).minY ≤ c.minY) ∧
    (∃ c ∈ (analyzeAllFiles files).map (fun nc => nc.2),
        (DenseV.analyzeAndOrganize files).minY = c.minY) ∧
    (∀ c ∈ (analyzeAllFiles files).map (fun nc => nc.2),
        c.maxY ≤ (DenseV.analyzeAndOrganize files).maxY) ∧
    (∃ c ∈ (analyzeAllFiles files).map (fun nc => nc.2),
        (DenseV.analyzeAndOrganize files).maxY = c.maxY) ∧
    DenseV.totalTilesX (DenseV.analyzeAndOrganize files)
      = ⌈((DenseV.analyzeAndOrganize files).maxX - (DenseV.analyzeAndOrganize files).minX)
          / (DenseV.analyzeAndOrganize files).tileSize⌉ ∧
    DenseV.totalTilesY (DenseV.analyzeAndOrganize files)
      = ⌈((DenseV.analyzeAndOrganize files).maxY - (DenseV.analyzeAndOrganize files).minY)
          / (DenseV.analyzeAndOrganize files).tileSize⌉ := by
  clear _hts
  unfold DenseV.analyzeAndOrganize
  cases hfc : analyzeAllFiles files with
  | nil => exact absurd hfc hne
  | cons p rest =>
    rw [DenseV.calcGridDense_eq_cons _ p rest (by simp [hfc])]
    simp only [DenseV.organizeFilesIntoTiles]
    refine ⟨?_, ?_⟩
    · intro k tl tf hlk htf
      rcases organizeLoop_mem _ _ _ k tl tf hlk htf with ⟨tl0, hl0, _⟩ | hsrc
      · rw [show mlookup ([] : List ((ℤ × ℤ) × List TileFile)) k = none from rfl] at hl0
        cases hl0
      · obtain ⟨nc, hncmem, hk, hoc, htx, hty, hfind⟩ := hsrc
      -- the found file is the member whose analysis produced nc
        have hnc2 : nc ∈ files.filterMap
            (fun f => Option.map (fun b => (f.name, extractCoordinatesFromFile b)) f.geometry) := by
          rw [← analyzeAllFiles_eq files hnd, hfc]
          exact hncmem
        obtain ⟨f2, hf2, hmap⟩ := List.mem_filterMap.mp hnc2
        cases hg : f2.geometry with
        | none =>
          rw [hg] at hmap
          exact Option.noConfusion hmap
        | some b =>
          rw [hg] at hmap
          simp only [Option.map_some', Option.some.injEq] at hmap
          have hfile : tf.file = f2 := by
            have h1 : files.find? (fun g => g.name == f2.name) = some f2 :=
              find?_name_eq files f2 hnd hf2
            have h2 : nc.1 = f2.name := by
              rw [← hmap]
            rw [h2] at hfind
            simp only at hfind
            rw [h1] at hfind
            injection hfind with hv
            exact hv.symm
          refine ⟨?_, htx, hty, b, ?_, ?_⟩
          · rw [hk]
            unfold DenseV.assignTile
            rw [hoc]
          · rw [hfile, hg]
          · rw [hoc, ← hmap]
    · refine ⟨?_, ?_, ?_, ?_, ?_, ?_, ?_, ?_, rfl, rfl⟩
      · exact (foldl_min_le (fun c => c.minX) _ _).2
      · rcases foldl_min_attained (fun c => c.minX) ((p :: rest).map (fun nc => nc.2))
            p.2.minX with h | ⟨c, hc, he⟩
        · exact ⟨p.2, by simp, h⟩
        · exact ⟨c, hc, he⟩
      · exact (foldl_max_ge (fun c => c.maxX) _ _).2
      · rcases foldl_max_attained (fun c => c.maxX) ((p :: rest).map (fun nc => nc.2))
            p.2.maxX with h | ⟨c, hc, he⟩
        · exact ⟨p.2, by simp, h⟩
        · exact ⟨c, hc, he⟩
      · exact (foldl_min_le (fun c => c.minY) _ _).2
      · rcases foldl_min_attained (fun c => c.minY) ((p :: rest).map (fun nc => nc.2))
            p.2.minY with h | ⟨c, hc, he⟩
        · exact ⟨p.2, by simp, h⟩
        · exact ⟨c, hc, he⟩
      · exact (foldl_max_ge (fun c => c.maxY) _ _).2
      · rcases foldl_max_attained (fun c => c.maxY) ((p :: rest).map (fun nc => nc.2))
            p.2.maxY with h | ⟨c, hc, he⟩
        · exact ⟨p.2, by simp, h⟩
        · exact ⟨c, hc, he⟩

/-- C4, witness: on `[fileA, fileB]` the tile holding `fileA` is exactly the
floor formula applied to its center and the derived frame. -/
theorem C4_tile_formula_witness :
    ((0, 0) : ℤ × ℤ)
      = (⌊(tfileA.originalCoords.centerX - (DenseV.analyzeAndOrganize [fileA, fileB]).minX)
            / (DenseV.analyzeAndOrganize [fileA, fileB]).tileSize⌋,
         ⌊(tfileA.originalCoords.centerY - (DenseV.analyzeAndOrganize [fileA, fileB]).minY)
            / (DenseV.analyzeAndOrganize [fileA, fileB]).tileSize⌋) ∧
    (∃ b, tfileA.file.geometry = some b ∧
        tfileA.originalCoords = extractCoordinatesFromFile b) := by
  have hne : analyzeAllFiles [fileA, fileB] ≠ [] := by
    rw [analyzeAB]
    simp
  have hts : 0 < (DenseV.analyzeAndOrganize [fileA, fileB]).tileSize := by
    rw [organizeAB]
    norm_num [stOrgAB, stFrameAB, initState]
  have hlk : mlookup (DenseV.analyzeAndOrganize [fileA, fileB]).allTileFiles (0, 0)
      = some [tfileA] := by
    rw [organizeAB]
    rfl
  have h := (C4_tile_formula [fileA, fileB] (by decide) hne hts).1 (0, 0) [tfileA] tfileA hlk
    (List.mem_cons_self _ _)
  exact ⟨h.1, h.2.2.2⟩

/-! ### C5: tile size -/

lemma foldl_add_eq (f : Coords → ℚ) (cs : List Coords) (q : ℚ) :
    cs.foldl (fun a c => a + f c) q = q + cs.foldl (fun a c => a + f c) 0 := by
  induction cs generalizing q with
  | nil => simp
  | cons c r ih =>
    rw [List.foldl_cons, List.foldl_cons, ih (q + f c), ih (0 + f c)]
    ring

lemma foldl_add_nonneg (f : Coords → ℚ) (cs : List Coords)
    (h : ∀ c ∈ cs, 0 ≤ f c) : 0 ≤ cs.foldl (fun a c => a + f c) 0 := by
  induction cs with
  | nil => simp
  | cons c r ih =>
    rw [List.foldl_cons, foldl_add_eq]
    have h1 : 0 ≤ f c := h c (by simp)
    have h2 : 0 ≤ r.foldl (fun a c => a + f c) 0 := ih (fun x hx => h x (by simp [hx]))
    linarith

lemma foldl_add_pos (f : Coords → ℚ) (cs : List Coords)
    (h : ∀ c ∈ cs, 0 ≤ f c) (c0 : Coords) (hc0 : c0 ∈ cs) (hpos : 0 < f c0) :
    0 < cs.foldl (fun a c => a + f c) 0 := by
  induction cs with
  | nil => simp at hc0
  | cons c r ih =>
    rw [List.foldl_cons, foldl_add_eq]
    have h2 : 0 ≤ r.foldl (fun a c => a + f c) 0 :=
      foldl_add_nonneg f r (fun x hx => h x (by simp [hx]))
    rcases List.mem_cons.mp hc0 with h1 | h1
    · subst h1
      linarith
    · have h3 : 0 ≤ f c := h c (by simp)
      have h4 := ih (fun x hx => h x (by simp [hx])) h1
      linarith

/-- C5: both variants compute the tile size as
`max(avg(extentX), avg(extentY)) * k`, with multiplier `1.2` for the dense
variant and `2.0` for the fixed 3x3 variant, the averages taken over all
successfully analyzed datasets; if every analyzed extent is non-negative and
at least one dataset has a positive extent on some axis, the tile size is
positive. -/
theorem C5_tile_size (files : List PlyFile) (hne : analyzeAllFiles files ≠ []) :
    ((DenseV.analyzeAndOrganize files).tileSize
      = max (((analyzeAllFiles files).map (fun nc => nc.2)).foldl
              (fun a (c : Coords) => a + c.extentX) 0
              / (((analyzeAllFiles files).map (fun nc => nc.2)).length : ℚ))
            (((analyzeAllFiles files).map (fun nc => nc.2)).foldl
              (fun a (c : Coords) => a + c.extentY) 0
              / (((analyzeAllFiles files).map (fun nc => nc.2)).length : ℚ)) * (6 / 5)) ∧
    ((Fixed33.analyzeAndOrganize files).tileSize
      = max (((analyzeAllFiles files).map (fun nc => nc.2)).foldl
              (fun a (c : Coords) => a + c.extentX) 0
              / (((analyzeAllFiles files).map (fun nc => nc.2)).length : ℚ))
            (((analyzeAllFiles files).map (fun nc => nc.2)).foldl
              (fun a (c : Coords) => a + c.extentY) 0
              / (((analyzeAllFiles files).map (fun nc => nc.2)).length : ℚ)) * 2) ∧
    ((∀ c ∈ (analyzeAllFiles files).map (fun nc => nc.2), 0 ≤ c.extentX ∧ 0 ≤ c.extentY) →
      (∃ c ∈ (analyzeAllFiles files).map (fun nc => nc.2), 0 < c.extentX ∨ 0 < c.extentY) →
      0 < (DenseV.analyzeAndOrganize files).tileSize ∧
      0 < (Fixed33.analyzeAndOrganize files).tileSize) := by
  unfold DenseV.analyzeAndOrganize Fixed33.analyzeAndOrganize
  cases hfc : analyzeAllFiles files with
  | nil => exact absurd hfc hne
  | cons p rest =>
    rw [DenseV.calcGridDense_eq_cons _ p rest (by simp [hfc]),
      Fixed33.calcGridFixed_eq_cons _ p rest (by simp [hfc])]
    refine ⟨?_, ?_, ?_⟩
    · simp [DenseV.organizeFilesIntoTiles]
    · simp [Fixed33.organizeFilesIntoTiles, Fixed33.organizeFilesIntoTilesW]
    · intro hall ⟨c0, hc0, hpos⟩
      have hlen : 0 < ((((p :: rest).map (fun nc => nc.2)).length : ℚ)) := by
        simp only [List.map_cons, List.length_cons]
        positivity
      have hmax : 0 < max
          (((p :: rest).map (fun nc => nc.2)).foldl (fun a (c : Coords) => a + c.extentX) 0
            / (((p :: rest).map (fun nc => nc.2)).length : ℚ))
          (((p :: rest).map (fun nc => nc.2)).foldl (fun a (c : Coords) => a + c.extentY) 0
            / (((p :: rest).map (fun nc => nc.2)).length : ℚ)) := by
        rcases hpos with hx | hy
        · refine lt_of_lt_of_le ?_ (le_max_left _ _)
          exact div_pos (foldl_add_pos (fun c => c.extentX) _
            (fun c hc => (hall c hc).1) c0 hc0 hx) hlen
        · refine lt_of_lt_of_le ?_ (le_max_right _ _)
          exact div_pos (foldl_add_pos (fun c => c.extentY) _
            (fun c hc => (hall c hc).2) c0 hc0 hy) hlen
      constructor
      · simp only [DenseV.organizeFilesIntoTiles]
        positivity
      · simp only [Fixed33.organizeFilesIntoTiles, Fixed33.organizeFilesIntoTilesW]
        positivity

/-- C5, witness: on `[fileA, fileB]` (non-negative extents, one positive)
both variants derive a positive tile size. -/
theorem C5_tile_size_witness :
    0 < (DenseV.analyzeAndOrganize [fileA, fileB]).tileSize ∧
    0 < (Fixed33.analyzeAndOrganize [fileA, fileB]).tileSize := by
  have hne : analyzeAllFiles [fileA, fileB] ≠ [] := by
    rw [analyzeAB]
    simp
  refine (C5_tile_size [fileA, fileB] hne).2.2 ?_ ?_
  · intro c hc
    rw [analyzeAB] at hc
    simp only [List.map_cons, List.map_nil, List.mem_cons, List.not_mem_nil, or_false] at hc
    rcases hc with h | h <;>
      (subst h; constructor <;> norm_num [extractCoordinatesFromFile, bbA, bbB])
  · refine ⟨extractCoordinatesFromFile bbA, ?_, ?_⟩
    · rw [analyzeAB]
      simp
    · left
      norm_num [extractCoordinatesFromFile, bbA]

/-! ### C6: fixed 3x3 assignment machinery -/

lemma zip_keys {α β : Type} (l1 : List α) (l2 : List β) :
    (l1.zip l2).map Prod.fst = l1.take l2.length := by
  induction l1 generalizing l2 with
  | nil => simp
  | cons a r ih =>
    cases l2 with
    | nil => simp
    | cons b r2 => simp [ih]

lemma zip_snds {α β : Type} (l1 : List α) (l2 : List β) :
    (l1.zip l2).map Prod.snd = l2.take l1.length := by
  induction l1 generalizing l2 with
  | nil => simp
  | cons a r ih =>
    cases l2 with
    | nil => simp
    | cons b r2 => simp [ih]

lemma mem_zip_get {α β : Type} (l1 : List α) (l2 : List β) (i : ℕ)
    (h1 : i < l1.length) (h2 : i < l2.length) :
    (l1.get ⟨i, h1⟩, l2.get ⟨i, h2⟩) ∈ l1.zip l2 := by
  induction l1 generalizing l2 i with
  | nil => simp at h1
  | cons a r ih =>
    cases l2 with
    | nil => simp at h2
    | cons b r2 =>
      cases i with
      | zero => simp
      | succ n =>
        simp only [List.zip_cons_cons, List.get_cons_succ, List.mem_cons]
        right
        exact ih r2 n (by simpa using h1) (by simpa using h2)

lemma assignLoop_warns_mono (cm : List (String × Coords)) (ps : List ((ℤ × ℤ) × PlyFile))
    (m : List ((ℤ × ℤ) × List TileFile)) (w : List String) (x : String) (hx : x ∈ w) :
    x ∈ (Fixed33.assignLoop cm ps m w).2 := by
  induction ps generalizing m w with
  | nil => simpa [Fixed33.assignLoop] using hx
  | cons kf rest ih =>
    obtain ⟨k, f⟩ := kf
    simp only [Fixed33.assignLoop]
    cases hm : mlookup cm f.name with
    | some c => exact ih _ _ hx
    | none => exact ih _ _ (by simp [hx])

lemma assignLoop_lookup_miss (cm : List (String × Coords)) (ps : List ((ℤ × ℤ) × PlyFile))
    (m : List ((ℤ × ℤ) × List TileFile)) (w : List String) (k : ℤ × ℤ)
    (h : k ∉ ps.map Prod.fst) :
    mlookup (Fixed33.assignLoop cm ps m w).1 k = mlookup m k := by
  induction ps generalizing m w with
  | nil => simp [Fixed33.assignLoop]
  | cons kf rest ih =>
    obtain ⟨k0, f⟩ := kf
    have hk0 : k ≠ k0 := by
      intro he
      exact h (by simp [he])
    have hrest : k ∉ rest.map Prod.fst := by
      intro hm
      exact h (by simp [hm])
    simp only [Fixed33.assignLoop]
    cases hm : mlookup cm f.name with
    | some c => rw [ih _ _ hrest, mlookup_mapSet_other _ _ _ _ hk0]
    | none => exact ih _ _ hrest

lemma assignLoop_lookup_hit (cm : List (String × Coords)) (ps : List ((ℤ × ℤ) × PlyFile))
    (m : List ((ℤ × ℤ) × List TileFile)) (w : List String) (k : ℤ × ℤ) (f : PlyFile)
    (hnd : (ps.map Prod.fst).Nodup) (hmem : (k, f) ∈ ps) :
    mlookup (Fixed33.assignLoop cm ps m w).1 k
      = match mlookup cm f.name with
        | some c => some [{ file := f, originalCoords := c, tileX := k.1, tileY := k.2 }]
        | none => mlookup m k := by
  induction ps generalizing m w with
  | nil => simp at hmem
  | cons kf rest ih =>
    obtain ⟨k0, f0⟩ := kf
    rw [List.map_cons, List.nodup_cons] at hnd
    obtain ⟨hk0nm, hndr⟩ := hnd
    rcases List.mem_cons.mp hmem with h1 | h1
    · injection h1 with hk hf
      subst hk
      subst hf
      simp only [Fixed33.assignLoop]
      cases hm : mlookup cm f.name with
      | some c =>
        rw [assignLoop_lookup_miss _ _ _ _ _ hk0nm, mlookup_mapSet_self]
      | none =>
        rw [assignLoop_lookup_miss _ _ _ _ _ hk0nm]
    · have hkne : k ≠ k0 := by
        intro he
        apply hk0nm
        have hmm : k ∈ rest.map Prod.fst := List.mem_map.mpr ⟨(k, f), h1, rfl⟩
        rw [he] at hmm
        exact hmm
      simp only [Fixed33.assignLoop]
      cases hm : mlookup cm f0.name with
      | some c =>
        rw [ih _ _ hndr h1]
        cases mlookup cm f.name with
        | some c2 => rfl
        | none => exact mlookup_mapSet_other _ _ _ _ hkne
      | none => exact ih _ _ hndr h1

lemma tileVals_mapSet_mem {α : Type} [DecidableEq α] (m : List (α × List TileFile)) (k : α)
    (vl : List TileFile) (tf : TileFile) (h : tf ∈ tileVals (mapSet m k vl)) :
    tf ∈ vl ∨ tf ∈ tileVals m := by
  induction m with
  | nil =>
    left
    simpa [mapSet, tileVals] using h
  | cons p r ih =>
    obtain ⟨a, l⟩ := p
    by_cases ha : a = k
    · subst ha
      simp only [mapSet, if_pos rfl, tileVals, List.mem_append] at h
      rcases h with h | h
      · exact Or.inl h
      · right
        simp [tileVals, h]
    · simp only [mapSet, ha, if_false, tileVals, List.mem_append] at h
      rcases h with h | h
      · right
        simp [tileVals, h]
      · rcases ih h with h2 | h2
        · exact Or.inl h2
        · right
          simp [tileVals, h2]

lemma assignLoop_tileVals_mem (cm : List (String × Coords)) (ps : List ((ℤ × ℤ) × PlyFile))
    (m : List ((ℤ × ℤ) × List TileFile)) (w : List String) (tf : TileFile)
    (h : tf ∈ tileVals (Fixed33.assignLoop cm ps m w).1) :
    tf ∈ tileVals m ∨ ∃ kf ∈ ps, tf.file = kf.2 := by
  induction ps generalizing m w with
  | nil =>
    left
    simpa [Fixed33.assignLoop] using h
  | cons kf0 rest ih =>
    obtain ⟨k0, f0⟩ := kf0
    simp only [Fixed33.assignLoop] at h
    cases hm : mlookup cm f0.name with
    | some c =>
      rw [hm] at h
      rcases ih _ _ h with h2 | ⟨kf, hkf, he⟩
      · rcases tileVals_mapSet_mem _ _ _ _ h2 with h3 | h3
        · simp only [List.mem_singleton] at h3
          subst h3
          exact Or.inr ⟨(k0, f0), by simp, rfl⟩
        · exact Or.inl h3
      · exact Or.inr ⟨kf, by simp [hkf], he⟩
    | none =>
      rw [hm] at h
      rcases ih _ _ h with h2 | ⟨kf, hkf, he⟩
      · exact Or.inl h2
      · exact Or.inr ⟨kf, by simp [hkf], he⟩

lemma emptyTiles33_eq : Fixed33.emptyTiles33
    = [((0, 0), []), ((0, 1), []), ((0, 2), []), ((1, 0), []), ((1, 1), []),
       ((1, 2), []), ((2, 0), []), ((2, 1), []), ((2, 2), [])] := rfl

lemma gridKeys33_nodup : Fixed33.gridKeys33.Nodup := by decide

lemma gridKeys33_get (i : ℕ) (hi : i < 9) :
    Fixed33.gridKeys33.get ⟨i, by simpa [Fixed33.gridKeys33] using hi⟩
      = (((i / 3 : ℕ) : ℤ), ((i % 3 : ℕ) : ℤ)) := by
  interval_cases i <;> rfl

lemma gridKeys33_not_mem_take (i m : ℕ) (hi : i < 9) (hm : m ≤ i) :
    (((i / 3 : ℕ) : ℤ), ((i % 3 : ℕ) : ℤ)) ∉ Fixed33.gridKeys33.take m := by
  interval_cases i <;> interval_cases m <;> decide

lemma filterMap_lookup : ∀ (files : List PlyFile), (files.map PlyFile.name).Nodup →
    ∀ f ∈ files, ∀ b : BBox, f.geometry = some b →
    mlookup (files.filterMap
        (fun f => Option.map (fun b => (f.name, extractCoordinatesFromFile b)) f.geometry))
        f.name
      = some (extractCoordinatesFromFile b) := by
  intro files
  induction files with
  | nil =>
    intro _ f hf
    simp at hf
  | cons g rest ih =>
    intro hnd f hf b hb
    rw [List.map_cons, List.nodup_cons] at hnd
    obtain ⟨hh, hndr⟩ := hnd
    rcases List.mem_cons.mp hf with h1 | h1
    · subst h1
      simp [List.filterMap_cons, hb, mlookup_cons_self]
    · have hne : g.name ≠ f.name := by
        intro he
        exact hh (he ▸ List.mem_map.mpr ⟨f, h1, rfl⟩)
      cases hg : g.geometry with
      | none => simpa [List.filterMap_cons, hg] using ih hndr f h1 b hb
      | some b2 =>
        simp only [List.filterMap_cons, hg, Option.map_some']
        rw [mlookup_cons_ne _ _ _ _ hne]
        exact ih hndr f h1 b hb

/-- Looking up a successful file's coordinates in the analysis map. -/
lemma analyzeAllFiles_lookup (files : List PlyFile) (hnd : (files.map PlyFile.name).Nodup)
    (f : PlyFile) (hf : f ∈ files) (b : BBox) (hb : f.geometry = some b) :
    mlookup (analyzeAllFiles files) f.name = some (extractCoordinatesFromFile b) := by
  rw [analyzeAllFiles_eq files hnd]
  exact filterMap_lookup files hnd f hf b hb

lemma get_take {α : Type} (l : List α) (n i : ℕ) (h1 : i < (l.take n).length)
    (h2 : i < l.length) : (l.take n).get ⟨i, h1⟩ = l.get ⟨i, h2⟩ := by
  induction l generalizing n i with
  | nil => simp at h2
  | cons a r ih =>
    cases n with
    | zero => simp at h1
    | succ n2 =>
      cases i with
      | zero => simp
      | succ i2 =>
        simp only [List.take_cons, List.get_cons_succ]
        exact ih n2 i2 (by simpa using h1) (by simpa using h2)

lemma emptyTiles33_lookup (i : ℕ) (hi : i < 9) :
    mlookup Fixed33.emptyTiles33 (((i / 3 : ℕ) : ℤ), ((i % 3 : ℕ) : ℤ))
      = some [] := by
  interval_cases i <;> rfl

lemma analyzeAllFiles_ne_nil (files : List PlyFile) (hnd : (files.map PlyFile.name).Nodup)
    (hne : files ≠ []) (hall : ∀ f ∈ files, f.geometry.isSome = true) :
    analyzeAllFiles files ≠ [] := by
  rw [analyzeAllFiles_eq files hnd]
  cases files with
  | nil => exact absurd rfl hne
  | cons g rest =>
    cases hg : g.geometry with
    | none =>
      have := hall g (by simp)
      rw [hg] at this
      simp at this
    | some b => simp [List.filterMap_cons, hg]

/-- C6: under the fixed 3x3 policy, for a non-empty input list of datasets
(distinct names, each with an extracted bounding box), the k-th of the first
`min(9, length)` input files is assigned alone to tile `(k/3, k%3)` — the 9
keys in row-major enumeration order — the remaining tiles of the 3x3 grid
stay empty, no file beyond the first 9 is ever assigned, and fewer than 9
inputs produce the `console.warn` notice rather than an error. -/
theorem C6_fixed_cap (files : List PlyFile) (hnd : (files.map PlyFile.name).Nodup)
    (hne : files ≠ []) (hall : ∀ f ∈ files, f.geometry.isSome = true) :
    (∀ (i : ℕ), i < 9 → ∀ (hlen : i < files.length),
      ∃ b, (files.get ⟨i, hlen⟩).geometry = some b ∧
        mlookup (Fixed33.analyzeAndOrganize files).allTileFiles
            (((i / 3 : ℕ) : ℤ), ((i % 3 : ℕ) : ℤ))
          = some [{ file := files.get ⟨i, hlen⟩,
                    originalCoords := extractCoordinatesFromFile b,
                    tileX := ((i / 3 : ℕ) : ℤ), tileY := ((i % 3 : ℕ) : ℤ) }]) ∧
    (∀ i : ℕ, i < 9 → files.length ≤ i →
      mlookup (Fixed33.analyzeAndOrganize files).allTileFiles
          (((i / 3 : ℕ) : ℤ), ((i % 3 : ℕ) : ℤ)) = some []) ∧
    (∀ tf ∈ tileVals (Fixed33.analyzeAndOrganize files).allTileFiles,
      tf.file ∈ files.take 9) ∧
    (∀ st : VizState, st.plyFiles = files → files.length < 9 →
      "fewFiles" ∈ (Fixed33.organizeFilesIntoTilesW st).2) := by
  have hfc0 : analyzeAllFiles files ≠ [] := analyzeAllFiles_ne_nil files hnd hne hall
  unfold Fixed33.analyzeAndOrganize
  cases hfc : analyzeAllFiles files with
  | nil => exact absurd hfc hfc0
  | cons p rest =>
    rw [Fixed33.calcGridFixed_eq_cons _ p rest (by simp [hfc])]
    simp only [Fixed33.organizeFilesIntoTiles, Fixed33.organizeFilesIntoTilesW]
    have hkeys : ((Fixed33.gridKeys33.zip (files.take 9)).map Prod.fst)
        = Fixed33.gridKeys33.take (files.take 9).length := zip_keys _ _
    have hkeysnd : (((Fixed33.gridKeys33.zip (files.take 9)).map Prod.fst)).Nodup := by
      rw [hkeys]
      exact List.Nodup.sublist (List.take_sublist _ _) gridKeys33_nodup
    refine ⟨?_, ?_, ?_, ?_⟩
    · intro i hi hlen
      obtain ⟨b, hb⟩ := Option.isSome_iff_exists.mp (hall _ (List.get_mem files i hlen))
      refine ⟨b, hb, ?_⟩
      have hgk : i < Fixed33.gridKeys33.length := by
        simpa [Fixed33.gridKeys33] using hi
      have htk : i < (files.take 9).length := by
        simp only [List.length_take]
        omega
      have hmemz := mem_zip_get Fixed33.gridKeys33 (files.take 9) i hgk htk
      rw [gridKeys33_get i hi, get_take files 9 i htk hlen] at hmemz
      have hhit := assignLoop_lookup_hit (p :: rest) (Fixed33.gridKeys33.zip (files.take 9))
        Fixed33.emptyTiles33
        (if (files.take 9).length < 9 then ["fewFiles"] else [])
        (((i / 3 : ℕ) : ℤ), ((i % 3 : ℕ) : ℤ)) (files.get ⟨i, hlen⟩) hkeysnd hmemz
      have hcm : mlookup (p :: rest) (files.get ⟨i, hlen⟩).name
          = some (extractCoordinatesFromFile b) := by
        rw [← hfc]
        exact analyzeAllFiles_lookup files hnd _ (List.get_mem files i hlen) b hb
      rw [hcm] at hhit
      exact hhit
    · intro i hi hlen
      have hnotmem : (((i / 3 : ℕ) : ℤ), ((i % 3 : ℕ) : ℤ))
          ∉ (Fixed33.gridKeys33.zip (files.take 9)).map Prod.fst := by
        rw [hkeys]
        refine gridKeys33_not_mem_take i (files.take 9).length hi ?_
        simp only [List.length_take]
        omega
      rw [assignLoop_lookup_miss _ _ _ _ _ hnotmem]
      exact emptyTiles33_lookup i hi
    · intro tf htf
      rcases assignLoop_tileVals_mem _ _ _ _ tf htf with h | ⟨kf, hkf, he⟩
      · rw [show tileVals Fixed33.emptyTiles33 = [] from rfl] at h
        exact absurd h (List.not_mem_nil tf)
      · have hsnd : kf.2 ∈ (Fixed33.gridKeys33.zip (files.take 9)).map Prod.snd :=
          List.mem_map.mpr ⟨kf, hkf, rfl⟩
        rw [zip_snds] at hsnd
        rw [he]
        exact (List.take_sublist _ _).subset hsnd
    · intro st2 hst2 hlen
      show "fewFiles" ∈ (Fixed33.assignLoop st2.fileCoordinates
        (Fixed33.gridKeys33.zip (st2.plyFiles.take 9)) Fixed33.emptyTiles33
        (if (st2.plyFiles.take 9).length < 9 then ["fewFiles"] else [])).2
      refine assignLoop_warns_mono _ _ _ _ _ ?_
      rw [hst2]
      rw [if_pos (by simp only [List.length_take]; omega)]
      exact List.mem_cons_self _ _

/-- C6, witness: on the two concrete datasets `[fileA, fileB]` the tile of
index 2 (beyond the input length) stays empty and the fewer-than-9 warning is
raised. -/
theorem C6_fixed_cap_witness :
    mlookup (Fixed33.analyzeAndOrganize [fileA, fileB]).allTileFiles
        (((2 / 3 : ℕ) : ℤ), ((2 % 3 : ℕ) : ℤ)) = some [] ∧
    "fewFiles" ∈ (Fixed33.organizeFilesIntoTilesW
        { initState with plyFiles := [fileA, fileB] }).2 := by
  have hall : ∀ f ∈ [fileA, fileB], f.geometry.isSome = true := by
    intro f hf
    rcases List.mem_cons.mp hf with h | h
    · subst h
      rfl
    · rcases List.mem_cons.mp h with h2 | h2
      · subst h2
        rfl
      · exact absurd h2 (List.not_mem_nil f)
  have h := C6_fixed_cap [fileA, fileB] (by decide) (by simp) hall
  exact ⟨h.2.1 2 (by norm_num) (by simp), h.2.2.2 _ rfl (by simp)⟩

/-! ### C7: empty-tile moves -/

/-- C7: with a non-empty catalog, a move to an in-bounds destination whose
tile has no entry is accepted by the dense variant — `currentTile` becomes the
destination and zero datasets are resident afterwards (after the initial
pass) — while the fixed 3x3 variant rejects the same move and leaves the
whole state unchanged. -/
theorem C7_empty_tile (st : VizState) (d : Dir)
    (hcat : st.allTileFiles.isEmpty = false)
    (hmiss : mlookup st.allTileFiles (stepDir st.currentTile d) = none) :
    (DenseV.isValidTilePosition st (stepDir st.currentTile d) →
      st.initialTilesLoaded = true →
      (DenseV.navigate st d).currentTile = stepDir st.currentTile d ∧
      (DenseV.navigate st d).currentPointClouds = []) ∧
    (Fixed33.inGrid33 (stepDir st.currentTile d) → Fixed33.navigate st d = st) := by
  constructor
  · intro hvalid hinit
    unfold DenseV.navigate
    simp only [hcat, Bool.false_eq_true, if_false]
    rw [if_pos (Or.inr hvalid)]
    obtain ⟨q1, q2, q3, q4, q5, q6, q7, q8⟩ :=
      DenseV.loadCurrentTileDense_proj { st with currentTile := stepDir st.currentTile d }
    refine ⟨by simpa using q1, ?_⟩
    unfold DenseV.loadCurrentTile
    simp [loadSeq, hinit, hmiss, clearCurrentPointClouds]
  · intro hgrid
    unfold Fixed33.navigate
    simp only [hcat, Bool.false_eq_true, if_false]
    unfold Fixed33.inGrid33 at hgrid
    rw [if_pos hgrid]
    rw [hmiss]
    simp

/-- A 2x2 grid with only tile `(0,0)` occupied, used by the C7 witness. -/
def stW7 : VizState :=
  { initState with
    currentTile := (0, 0)
    allTileFiles := [((0, 0), [tfW])]
    initialTilesLoaded := true
    minX := 0
    maxX := 2
    minY := 0
    maxY := 2
    tileSize := 1 }

/-- C7, witness: on `stW7`, moving right to the empty in-bounds tile `(1,0)`
is accepted by the dense variant with zero resident datasets, and rejected by
the fixed 3x3 variant. -/
theorem C7_empty_tile_witness :
    (DenseV.navigate stW7 Dir.right).currentTile = (1, 0) ∧
    (DenseV.navigate stW7 Dir.right).currentPointClouds = [] ∧
    Fixed33.navigate stW7 Dir.right = stW7 := by
  have hcat : stW7.allTileFiles.isEmpty = false := rfl
  have hmiss : mlookup stW7.allTileFiles (stepDir stW7.currentTile Dir.right) = none := rfl
  have h := C7_empty_tile stW7 Dir.right hcat hmiss
  have hvalid : DenseV.isValidTilePosition stW7 (stepDir stW7.currentTile Dir.right) := by
    unfold DenseV.isValidTilePosition DenseV.totalTilesX DenseV.totalTilesY stW7 initState stepDir
    norm_num
  have hgrid : Fixed33.inGrid33 (stepDir stW7.currentTile Dir.right) := by
    unfold Fixed33.inGrid33 stW7 initState stepDir
    norm_num
  obtain ⟨hd, he⟩ := h.1 hvalid rfl
  refine ⟨?_, he, h.2 hgrid⟩
  rw [hd]
  rfl

/-! ### C8: empty input -/

/-- C8: when the folder selection yields no `.ply` files, the handler raises
the alert (the error result) and leaves the entire state untouched: no grid
frame, no tile store contents and no initial tile are produced. -/
theorem C8_empty_input (st : VizState) (input : List PlyFile)
    (h : (input.filter (fun f => DenseV.isPlyName f.name)).isEmpty = true) :
    DenseV.handleFolderSelection st input = (st, true) := by
  unfold DenseV.handleFolderSelection
  simp [h]

/-- C8, witness: the handler on the empty selection returns the unchanged
state and the error flag. -/
theorem C8_empty_input_witness :
    DenseV.handleFolderSelection initState [] = (initState, true) :=
  C8_empty_input initState [] rfl

/-! ### C9: extraction failure -/

lemma mlookup_eq_none_of_not_mem_keys {α β : Type} [DecidableEq α] (m : List (α × β)) (k : α)
    (h : k ∉ m.map Prod.fst) : mlookup m k = none := by
  induction m with
  | nil => rfl
  | cons p r ih =>
    obtain ⟨a, b⟩ := p
    have ha : a ≠ k := by
      intro he
      exact h (by simp [he])
    rw [mlookup_cons_ne _ _ _ _ ha]
    refine ih ?_
    intro hm
    exact h (by simp [hm])

/-- C9: a dataset whose bounding-box extraction fails is reported through
exactly one `console.error` notification, is absent from the analysis map and
from every tile, while the organizer still assigns all successfully analyzed
datasets (the failure does not abort the batch). -/
theorem C9_extraction_failure (files : List PlyFile) (hnd : (files.map PlyFile.name).Nodup)
    (f : PlyFile) (hf : f ∈ files) (hfail : f.geometry = none) :
    cnt f.name (analyzeAllFilesE files).2 = 1 ∧
    mlookup (analyzeAllFiles files) f.name = none ∧
    cnt f.name (namesOf (tileVals (DenseV.analyzeAndOrganize files).allTileFiles)) = 0 ∧
    (∀ s : String, cnt s (namesOf (tileVals (DenseV.analyzeAndOrganize files).allTileFiles))
        = cnt s ((files.filter (fun g => g.geometry.isSome)).map PlyFile.name)) := by
  have hnotsucc : f.name ∉ (files.filter (fun g => g.geometry.isSome)).map PlyFile.name := by
    intro hmem
    obtain ⟨g, hgf, hge⟩ := List.mem_map.mp hmem
    have hgm := List.mem_filter.mp hgf
    have heq : g = f := List.inj_on_of_nodup_map hnd hgm.1 hf hge
    rw [heq, hfail] at hgm
    simp at hgm
  refine ⟨?_, ?_, ?_, (analyzeAndOrganize_cnt files hnd).2⟩
  · rw [analyzeErrors_eq files hnd]
    have hsubnd : ((files.filter (fun g => g.geometry.isNone)).map PlyFile.name).Nodup :=
      List.Nodup.sublist ((List.filter_sublist files).map PlyFile.name) hnd
    refine cnt_eq_one_of_mem_nodup hsubnd ?_
    refine List.mem_map_of_mem _ (List.mem_filter.mpr ⟨hf, ?_⟩)
    rw [hfail]
    rfl
  · rw [analyzeAllFiles_eq files hnd]
    refine mlookup_eq_none_of_not_mem_keys _ _ ?_
    rw [filterMap_fst]
    exact hnotsucc
  · rw [(analyzeAndOrganize_cnt files hnd).2 f.name]
    exact cnt_eq_zero_of_not_mem hnotsucc

/-- C9, witness: on `[fileA, fileBad]` the failing dataset is reported once,
absent from the analysis map and from every tile. -/
theorem C9_extraction_failure_witness :
    cnt "bad.ply" (analyzeAllFilesE [fileA, fileBad]).2 = 1 ∧
    mlookup (analyzeAllFiles [fileA, fileBad]) "bad.ply" = none := by
  have h := C9_extraction_failure [fileA, fileBad] (by decide) fileBad
    (List.mem_cons_of_mem _ (List.mem_cons_self _ _)) rfl
  exact ⟨h.1, h.2.1⟩

/-! ### C10: the loadedPointClouds cache -/

/-- C10: clearing the current tile empties `currentPointClouds` and removes
those objects from the scene but leaves `loadedPointClouds` unchanged; each
successful `loadFileForTile` records its file name in `loadedPointClouds`,
which never loses an entry across loads or navigation; only
`clearAllPointClouds` empties it. -/
theorem C10_loaded_cache (st : VizState) :
    (clearCurrentPointClouds st).loadedPointClouds = st.loadedPointClouds ∧
    (clearCurrentPointClouds st).currentPointClouds = [] ∧
    (st.scene = st.currentPointClouds → (clearCurrentPointClouds st).scene = []) ∧
    (∀ (tf : TileFile) (st2 : VizState), loadFileForTile st tf = some st2 →
        mlookup st2.loadedPointClouds tf.file.name = some tf.file.name ∧
        (∀ s, (mlookup st.loadedPointClouds s).isSome = true →
          (mlookup st2.loadedPointClouds s).isSome = true)) ∧
    (∀ (d : Dir) (s : String), (mlookup st.loadedPointClouds s).isSome = true →
        (mlookup (DenseV.navigate st d).loadedPointClouds s).isSome = true) ∧
    (clearAllPointClouds st).loadedPointClouds = [] := by
  refine ⟨rfl, rfl, clearCurrentPointClouds_scene st, ?_, ?_, rfl⟩
  · intro tf st2 h
    unfold loadFileForTile at h
    by_cases hl : tf.file.loadOk
    · rw [if_pos hl] at h
      injection h with h2
      subst h2
      constructor
      · exact mlookup_mapSet_self _ _ _
      · intro s hs
        by_cases hsn : s = tf.file.name
        · subst hsn
          simp [mlookup_mapSet_self]
        · simpa [mlookup_mapSet_other _ _ _ _ hsn] using hs
    · rw [if_neg hl] at h
      cases h
  · intro d s hs
    unfold DenseV.navigate
    by_cases he : st.allTileFiles.isEmpty
    · simpa [he] using hs
    · simp only [he, Bool.false_eq_true, if_false]
      by_cases hc : (mlookup st.allTileFiles (stepDir st.currentTile d)).isSome = true ∨
          DenseV.isValidTilePosition st (stepDir st.currentTile d)
      · simp only [hc, if_true]
        unfold DenseV.loadCurrentTile
        refine loadSeq_loaded_mono _ _ s ?_
        have p9 := (clearCurrentPointClouds_proj
          { st with currentTile := stepDir st.currentTile d }).2.2.2.2.2.2.2.2.1
        rw [p9]
        simpa using hs
      · simpa [hc] using hs

/-- C10, witness: on the concrete state `stReadyAB`, clearing keeps the cache
and empties the scene; a navigation step keeps the cached entry, and
`clearAllPointClouds` empties the cache. -/
theorem C10_loaded_cache_witness :
    (clearCurrentPointClouds stReadyAB).loadedPointClouds = stReadyAB.loadedPointClouds ∧
    (clearCurrentPointClouds stReadyAB).scene = [] ∧
    (mlookup (DenseV.navigate stReadyAB Dir.down).loadedPointClouds "a.ply").isSome = true ∧
    (clearAllPointClouds stReadyAB).loadedPointClouds = [] := by
  have h := C10_loaded_cache stReadyAB
  exact ⟨h.1, h.2.2.1 rfl, h.2.2.2.2.1 Dir.down "a.ply" rfl, h.2.2.2.2.2⟩
